import Mathlib

/-!
Verification of the JustCode grading pipeline (backend executors).

This file gives a shallow embedding of the pure core of
`backend/src/services/pythonExecutor.ts` and
`backend/src/services/javaExecutor.ts` (plus the shared constants of
`backend/src/constants.ts`) and proves properties of the grading
state machine: per-testcase verdict classification, the sentinel split
of harness stdout, the hidden-testcase redaction policy, first-failure
overall-status aggregation, the interpreted-language compile-error
abort, compilation-diagnostics parsing, type-codec generation for the
Java harness, and workspace cleanup.

Subprocess execution itself (child_process.exec) is environmental: a
finished subprocess is represented by a `RawResult` record (stdout,
stderr, exit code, as produced by `executeCommand`), and the measured
wall-clock time by a `Nat`.  The JavaScript builtins `JSON.parse` and
`JSON.stringify` are modelled: parsing as a `String → Option Json`
parameter (JSON.parse either throws or yields a JSON value), and
stringification as the `Json.stringify` function below.
-/

/-- A JSON value as produced by `JSON.parse` / consumed by
`JSON.stringify`.  Numbers are modelled as integers (the testcase
values exercised by the executors are integral; numeric formatting of
non-integral doubles is irrelevant to the claims proved here).
Object fields keep their insertion order, as JavaScript objects do. -/
inductive Json where
  | null : Json
  | bool (b : Bool) : Json
  | num (n : Int) : Json
  | str (s : String) : Json
  | arr (elems : List Json) : Json
  | obj (fields : List (String × Json)) : Json

/-- JSON string escaping as performed by `JSON.stringify` on the
characters relevant here: backslash and double quote get a backslash
prefix.  (Control-character escapes are not modelled; no claim
depends on them.) -/
def jsonEscapeChar (c : Char) : List Char :=
  if c = '"' ∨ c = '\\' then ['\\', c] else [c]

/-- Render a string as a JSON string literal (quote and escape). -/
def jsonQuote (s : String) : String :=
  "\"" ++ String.mk (s.data.flatMap jsonEscapeChar) ++ "\""

mutual

/-- `JSON.stringify` (no indentation): the canonical compact JSON
rendering of a value.  Object fields are rendered in insertion
order — `JSON.stringify` does not sort keys. -/
def Json.stringify : Json → String
  | .null => "null"
  | .bool true => "true"
  | .bool false => "false"
  | .num n => toString n
  | .str s => jsonQuote s
  | .arr elems => "[" ++ Json.stringifyArr elems ++ "]"
  | .obj fields => "\x7b" ++ Json.stringifyObj fields ++ "\x7d"

/-- Comma-joined renderings of array elements. -/
def Json.stringifyArr : List Json → String
  | [] => ""
  | [x] => Json.stringify x
  | x :: xs => Json.stringify x ++ "," ++ Json.stringifyArr xs

/-- Comma-joined `"key":value` renderings of object fields. -/
def Json.stringifyObj : List (String × Json) → String
  | [] => ""
  | [(k, v)] => jsonQuote k ++ ":" ++ Json.stringify v
  | (k, v) :: xs => jsonQuote k ++ ":" ++ Json.stringify v ++ "," ++ Json.stringifyObj xs

end

/-- JavaScript property access `j["key"]` on a parsed JSON value:
defined (the first binding) for an object that has the key, undefined
(`none`) otherwise.  `JSON.parse` output never has duplicate keys. -/
def jsonGet (j : Json) (key : String) : Option Json :=
  match j with
  | .obj fields => fields.lookup key
  | _ => none

/-- JavaScript property access `parsed.result` as executed inside the
`try` block of `runTestcase`: accessing a property of `null` throws a
TypeError (modelled as `none`, routed to the same `catch` as a JSON
parse failure); on any other value the access succeeds, yielding the
property value for objects and `undefined` (`some none`) otherwise.
(`JSON.parse` never returns `undefined`, so `null` is the only
throwing case.) -/
def jsGetResult : Json → Option (Option Json)
  | .null => none
  | .obj fields => some (fields.lookup "result")
  | _ => some none

mutual

/-- Modelled from the spec and claim C4 wording: deep structural
equality of JSON values — value equality of scalars, element-wise
equality of arrays at every nesting depth, and key-set plus per-key
equality of objects irrespective of key order.  This is the
comparison the claim asserts; it is compared against the source's
`compareOutputs` below. -/
def jsonDeepEqUnordered : Json → Json → Bool
  | .null, .null => true
  | .bool a, .bool b => a == b
  | .num a, .num b => a == b
  | .str a, .str b => a == b
  | .arr xs, .arr ys => jsonDeepEqUnorderedList xs ys
  | .obj xs, .obj ys => xs.length == ys.length && jsonDeepEqUnorderedFields xs ys
  | _, _ => false

/-- Element-wise deep equality of JSON arrays. -/
def jsonDeepEqUnorderedList : List Json → List Json → Bool
  | [], [] => true
  | x :: xs, y :: ys => jsonDeepEqUnordered x y && jsonDeepEqUnorderedList xs ys
  | _, _ => false

/-- Every field of the first object is present in the second (looked
up by key, irrespective of position) with a deep-equal value. -/
def jsonDeepEqUnorderedFields : List (String × Json) → List (String × Json) → Bool
  | [], _ => true
  | (k, v) :: rest, ys =>
      (match ys.lookup k with
       | some w => jsonDeepEqUnordered v w
       | none => false) && jsonDeepEqUnorderedFields rest ys

end

/-! ## Shared constants (`backend/src/constants.ts`) -/

/-- Separator marker between debug output and JSON result. -/
def RESULT_SEPARATOR : String := "===RESULT_JSON_START==="

/-- Per-testcase wall-clock budget (1 second), in milliseconds. -/
def TESTCASE_TIMEOUT_MS : Nat := 1000

/-- Compile-step wall-clock budget (10 seconds), in milliseconds. -/
def COMPILE_TIMEOUT_MS : Nat := 10000

/-! ## JavaScript string operations

The executors use `String.prototype.indexOf`, `substring`, `trim`,
`includes`, `split`, `toLowerCase` and the `||` string default.  These
are modelled on `List Char` (JavaScript string indices are code units;
all strings involved here are ASCII, where code units and characters
coincide). -/

/-- Index of the first occurrence of `sep` in `s`
(`String.prototype.indexOf`, `none` for `-1`). -/
def strFirstMatch (sep : List Char) : List Char → Option Nat
  | [] => if sep = [] then some 0 else none
  | c :: rest =>
      if sep.isPrefixOf (c :: rest) then some 0
      else (strFirstMatch sep rest).map (· + 1)

/-- `String.prototype.indexOf` on Lean strings (`none` = not found). -/
def jsIndexOf (s sep : String) : Option Nat :=
  strFirstMatch sep.data s.data

/-- `String.prototype.includes`. -/
def jsIncludes (s sub : String) : Bool :=
  (jsIndexOf s sub).isSome

/-- `String.prototype.trim` on char lists: strip leading and trailing
whitespace. -/
def trimChars (s : List Char) : List Char :=
  ((s.dropWhile Char.isWhitespace).reverse.dropWhile Char.isWhitespace).reverse

/-- `String.prototype.trim`. -/
def jsTrim (s : String) : String :=
  String.mk (trimChars s.data)

/-- `String.prototype.toLowerCase` (ASCII). -/
def jsToLowerCase (s : String) : String :=
  String.mk (s.data.map Char.toLower)

/-- The JavaScript `||` default on strings: the empty string is falsy. -/
def jsOrElse (s fallback : String) : String :=
  if s = "" then fallback else s

/-- Split a char list at every occurrence of a character
(`String.prototype.split` with a single-character separator). -/
def splitOnChar (sep : Char) : List Char → List (List Char)
  | [] => [[]]
  | c :: rest =>
      let r := splitOnChar sep rest
      if c = sep then [] :: r
      else match r with
        | [] => [[c]]
        | l :: ls => (c :: l) :: ls

/-- `s.split('\n')` as Lean strings. -/
def jsSplitLines (s : String) : List String :=
  (splitOnChar '\n' s.data).map String.mk

/-- `msg.split('\n')[0]`: the first line of a string. -/
def firstLine (s : String) : String :=
  match jsSplitLines s with
  | [] => ""
  | l :: _ => l

/-! ## Data model (`backend/src/types.ts` and executor return shapes) -/

/-- `TestcaseResult.status`: the verdict of one testcase. -/
inductive TcStatus where
  | Passed | Failed | Error | Timeout
deriving DecidableEq, Repr

/-- One testcase: named JSON inputs and the expected JSON output
(`Testcase` in `types.ts`; the executors read `testcase.input` and
`testcase.output`). -/
structure Testcase where
  input : Json
  output : Json

/-- `TestcaseResult`: the per-testcase verdict record assembled by
`runTestcase` and re-indexed by the grading loop. -/
structure TcResult where
  index : Nat
  status : TcStatus
  input : Json
  expected : Json
  actual : Option Json := none
  errorMessage : Option String := none
  executionTime : Nat

/-- The result of one finished subprocess as delivered by
`executeCommand`: a killed-by-timeout process is reported as
`exitCode = -1` with stdout `""` and stderr `"Time Limit Exceeded"`;
otherwise the exit code is the process's own. -/
structure RawResult where
  stdout : String
  stderr : String
  exitCode : Int

/-- `CompilationError`: one structured compiler diagnostic. -/
structure CompilationError where
  file : String
  line : Nat
  column : Nat
  message : String
  severity : String
deriving DecidableEq, Repr

/-- Overall submission status. -/
inductive OverallStatus where
  | AC | WA | CE | RE | TLE
deriving DecidableEq, Repr

/-- The record returned by `executeCode` (both executors). -/
structure ExecResult where
  status : OverallStatus
  message : String
  testcaseResults : List TcResult
  totalTestcases : Nat
  passedTestcases : Nat
  compilationErrors : Option (List CompilationError) := none
  debugOutput : Option String := none

/-! ## Sentinel split and per-testcase classification (`runTestcase`) -/

/-- The stdout split of `runTestcase` (identical in both executors):
`debugOutput` starts empty and `jsonOutput` starts as the whole
stdout; when `RESULT_SEPARATOR` occurs, the trimmed text before its
first occurrence becomes `debugOutput` and the trimmed text after it
becomes `jsonOutput`. -/
def splitOutput (stdout : String) : String × String :=
  match jsIndexOf stdout RESULT_SEPARATOR with
  | none => ("", stdout)
  | some i =>
      (jsTrim (String.mk (stdout.data.take i)),
       jsTrim (String.mk (stdout.data.drop (i + RESULT_SEPARATOR.length))))

/-- `compareOutputs` (both executors): deep comparison by equality of
`JSON.stringify` renderings. -/
def compareOutputs (expected actual : Json) : Bool :=
  Json.stringify expected == Json.stringify actual

/-- The pure classification core of `runTestcase`, identical in both
executors.  Inputs: the `JSON.parse` model, the testcase, the raw
subprocess result, and the measured elapsed time `executionTime`.
Returns the verdict record (with `index` still 0, as in the source;
the grading loop overwrites it) and the extracted debug output.

Source order: split stdout on the separator; timeout check
(`exitCode === -1 || executionTime >= TESTCASE_TIMEOUT_MS`); runtime
error check (`exitCode !== 0`, stderr defaulted to `'Runtime error'`
when empty); `JSON.parse(jsonOutput)` and `parsed.result` inside one
`try`, whose catch produces a parse-failure `Error` — both when the
parse throws and when the parsed value is `null` (property access on
`null` throws a TypeError); otherwise `compareOutputs` on
`parsed.result` (an absent `result` property is `undefined`, which
never stringify-equals the expected value, hence `Failed`). -/
def classifyRun (parse : String → Option Json) (tc : Testcase)
    (raw : RawResult) (executionTime : Nat) : TcResult × String :=
  let split := splitOutput raw.stdout
  let debugOutput := split.1
  let jsonOutput := split.2
  if raw.exitCode = -1 ∨ TESTCASE_TIMEOUT_MS ≤ executionTime then
    ({ index := 0, status := .Timeout, input := tc.input, expected := tc.output,
       executionTime := executionTime }, debugOutput)
  else if raw.exitCode ≠ 0 then
    ({ index := 0, status := .Error, input := tc.input, expected := tc.output,
       errorMessage := some (jsOrElse raw.stderr "Runtime error"),
       executionTime := executionTime }, debugOutput)
  else
    match parse jsonOutput with
    | some parsed =>
        match jsGetResult parsed with
        | some actual =>
            let isCorrect := match actual with
              | some a => compareOutputs tc.output a
              | none => false
            ({ index := 0, status := if isCorrect then .Passed else .Failed,
               input := tc.input, expected := tc.output, actual := actual,
               executionTime := executionTime }, debugOutput)
        | none =>
            ({ index := 0, status := .Error, input := tc.input, expected := tc.output,
               errorMessage := some ("Failed to parse output: " ++ raw.stdout),
               executionTime := executionTime }, debugOutput)
    | none =>
        ({ index := 0, status := .Error, input := tc.input, expected := tc.output,
           errorMessage := some ("Failed to parse output: " ++ raw.stdout),
           executionTime := executionTime }, debugOutput)

/-! ## Compilation-diagnostics parsing

`parseJavaCompilationErrors` applies the regex
`/^(.+?\.java):(\d+):\s*(error|warning):\s*(.+)$/gm` to stderr; with
the `m` flag each newline-delimited line is matched independently (at
most one match per line, since a match extends to the line's end).
The lazy `(.+?)` makes the regex engine try file-prefix split points
from shortest to longest.  `parsePythonSyntaxErrors` applies
`/File "(.+?)", line (\d+)/g` plus a first match of
`/(SyntaxError|IndentationError|NameError|TypeError):\s*(.+)/`. -/

/-- Longest digit prefix of a char list and the remainder (`\d+`,
greedy). -/
def leadingDigits : List Char → List Char × List Char
  | [] => ([], [])
  | c :: rest =>
      if c.isDigit then
        let p := leadingDigits rest
        (c :: p.1, p.2)
      else ([], c :: rest)

/-- Decimal value of a digit string (`parseInt(s, 10)` on an all-digit
string). -/
def digitsToNat (ds : List Char) : Nat :=
  ds.foldl (fun acc c => acc * 10 + (c.toNat - '0'.toNat)) 0

/-- Strip an exact literal prefix, returning the remainder. -/
def dropLit : List Char → List Char → Option (List Char)
  | [], s => some s
  | _, [] => none
  | p :: ps, c :: cs => if p = c then dropLit ps cs else none

/-- `path.basename`: the part after the last `/`. -/
def jsPathBasename (s : String) : String :=
  match (splitOnChar '/' s.data).getLast? with
  | some l => String.mk l
  | none => s

/-- Match the tail of a javac diagnostic after `file.java:`:
`(\d+):\s*(error|warning):\s*(.+)$`.  Returns (line number, severity,
trimmed message).  The final `\s*(.+)$` requires at least one
character after the severity colon, and the code trims the captured
message, so the captured message is the trimmed remainder. -/
def matchJavaTail (s : List Char) : Option (Nat × String × String) :=
  let d := leadingDigits s
  if d.1 = [] then none
  else
    match d.2 with
    | ':' :: r2 =>
        let r3 := r2.dropWhile Char.isWhitespace
        let sevRest : Option (String × List Char) :=
          match dropLit "error".data r3 with
          | some r4 => some ("error", r4)
          | none =>
              match dropLit "warning".data r3 with
              | some r4 => some ("warning", r4)
              | none => none
        match sevRest with
        | some (sev, ':' :: rest) =>
            if rest = [] then none
            else some (digitsToNat d.1, sev, jsTrim (String.mk rest))
        | _ => none
    | _ => none

/-- Try the javac line pattern with the file group covering the first
`k` characters of the line: `k ≥ 6` (at least one character before the
literal `.java`), the prefix ends in `.java`, a `:` follows, and the
tail matches. -/
def javaLineTry (l : List Char) (k : Nat) : Option CompilationError :=
  if 6 ≤ k ∧ ".java".data.isSuffixOf (l.take k) ∧ (l.drop k).head? = some ':' then
    match matchJavaTail (l.drop k).tail with
    | some (lineNo, sev, msg) =>
        some { file := jsPathBasename (String.mk (l.take k)), line := lineNo,
               column := 1, message := msg, severity := sev }
    | none => none
  else none

/-- First success of `f` on `1, 2, …, n` (in ascending order — the
lazy `(.+?)` tries shorter file prefixes first). -/
def firstSomeUpTo {β : Type} (f : Nat → Option β) : Nat → Option β
  | 0 => none
  | n + 1 =>
      match firstSomeUpTo f n with
      | some b => some b
      | none => f (n + 1)

/-- Match one stderr line against the javac diagnostic grammar. -/
def matchJavaLine (l : List Char) : Option CompilationError :=
  firstSomeUpTo (javaLineTry l) l.length

/-- `JavaExecutor.parseJavaCompilationErrors`: every stderr line
matching the javac diagnostic grammar, as a structured record with
`column` fixed to 1. -/
def parseJavaCompilationErrors (stderr : String) : List CompilationError :=
  (jsSplitLines stderr).filterMap fun line => matchJavaLine line.data

/-- Candidate `(\s*)(.+)` split of the text after a Python error-class
keyword's colon: the backtracking regex consumes the largest
all-whitespace prefix whose successor character exists and is not a
newline, and captures from there to the next newline.  `none` when no
such split exists (empty tail or newlines only). -/
def pyMsgCapture (tail : List Char) : Option (List Char) :=
  let w := tail.takeWhile Char.isWhitespace
  let r := tail.drop w.length
  match r with
  | _ :: _ => some (r.takeWhile (· ≠ '\n'))
  | [] =>
      match w.reverse.find? (· ≠ '\n') with
      | some c => some [c]
      | none => none

/-- The error-class keywords of `errorMsgRegex`. -/
def pyErrorKeywords : List String :=
  ["SyntaxError", "IndentationError", "NameError", "TypeError"]

/-- Try the `(<Keyword>):\s*(.+)` alternation at one position. -/
def pyErrKwAt (s : List Char) : List String → Option (String × String)
  | [] => none
  | kw :: rest =>
      match dropLit (kw.data ++ [':']) s with
      | some tail =>
          match pyMsgCapture tail with
          | some cap => some (kw, String.mk cap)
          | none => pyErrKwAt s rest
      | none => pyErrKwAt s rest

/-- First match of `errorMsgRegex` anywhere in the text. -/
def pyErrMsgScan : List Char → Option (String × String)
  | [] => none
  | c :: rest =>
      match pyErrKwAt (c :: rest) pyErrorKeywords with
      | some r => some r
      | none => pyErrMsgScan rest

/-- Try the `File "(.+?)", line (\d+)` tail with the lazy file group
covering the first `k` characters after `File "`: the group is
nonempty, newline-free (`.` does not match newlines), and followed by
the literal `", line ` and at least one digit (taken greedily).
Returns (file group, line number, remainder after the digits). -/
def pyFileTailTry (r : List Char) (k : Nat) : Option (List Char × Nat × List Char) :=
  let p := r.take k
  if 1 ≤ k ∧ ¬ p.contains '\n' then
    match dropLit "\", line ".data (r.drop k) with
    | some rest =>
        match leadingDigits rest with
        | ([], _) => none
        | (ds, rest2) => some (p, digitsToNat ds, rest2)
    | none => none
  else none

/-- Match `File "(.+?)", line (\d+)` at one position. -/
def pyFileMatchAt (s : List Char) : Option (List Char × Nat × List Char) :=
  match dropLit "File \"".data s with
  | some r => firstSomeUpTo (pyFileTailTry r) r.length
  | none => none

/-- All non-overlapping matches of `fileLineRegex` scanning left to
right (the `g`-flag `exec` loop); the fuel is the text length, an
upper bound on scan steps. -/
def pyFileLineScan : List Char → Nat → List (List Char × Nat)
  | _, 0 => []
  | s, fuel + 1 =>
      match s with
      | [] => []
      | c :: rest =>
          match pyFileMatchAt (c :: rest) with
          | some (file, n, remainder) => (file, n) :: pyFileLineScan remainder fuel
          | none => pyFileLineScan rest fuel

/-- `PythonExecutor.parsePythonSyntaxErrors`: one record per
`File "…", line n` occurrence, each carrying the same message — the
first error-class match in the whole text, or `'Syntax error'`. -/
def parsePythonSyntaxErrors (stderr : String) : List CompilationError :=
  let message :=
    match pyErrMsgScan stderr.data with
    | some (kw, cap) => jsTrim (kw ++ ": " ++ cap)
    | none => "Syntax error"
  (pyFileLineScan stderr.data stderr.data.length).map fun fl =>
    { file := jsPathBasename (String.mk fl.1), line := fl.2, column := 1,
      message := message, severity := "error" }

/-! ## The grading loop (`executeCode`, both executors)

The testcase loop of `executeCode` is textually identical in
`JavaExecutor` and `PythonExecutor`, except that the Python executor
additionally checks the first testcase's error for syntax-error
signatures (interpreted languages have no compile step).  The loop is
modelled once, with an `interpretedCE` flag selecting that check. -/

/-- Accumulator of the testcase loop: the visible results pushed so
far, collected debug sections, the pass tally, the first non-passing
result, and the first non-passing hidden result. -/
structure LoopState where
  results : List TcResult
  debugOutputs : List String
  passed : Nat
  firstFailure : Option TcResult
  firstHiddenFailure : Option TcResult

/-- Loop entry state: everything empty / zero. -/
def initLoopState : LoopState := ⟨[], [], 0, none, none⟩

/-- Debug collection at loop index `i` (0-based):
`debugOutputs.push('[Testcase ' + (i+1) + ']\n' + debugOutput)` when
the debug output is non-empty. -/
def collectDebug (i : Nat) (debugOutput : String) (st : LoopState) : LoopState :=
  if debugOutput ≠ "" then
    { st with debugOutputs :=
        st.debugOutputs ++ ["[Testcase " ++ toString (i + 1) ++ "]\n" ++ debugOutput] }
  else st

/-- The visibility branch of the loop body for the (re-indexed) result
`r` at loop index `i`: hidden testcases (`!showHiddenInputs && i >= 3`)
only update the tally and the first-failure/first-hidden-failure
trackers; visible testcases are pushed in full and update the tally
and first-failure tracker. -/
def visibilityStep (showHiddenInputs : Bool) (i : Nat) (r : TcResult)
    (st : LoopState) : LoopState :=
  if showHiddenInputs = false ∧ 3 ≤ i then
    if r.status = .Passed then { st with passed := st.passed + 1 }
    else
      { st with
        firstFailure := match st.firstFailure with
          | none => some r
          | some f => some f,
        firstHiddenFailure := match st.firstHiddenFailure with
          | none => some r
          | some f => some f }
  else
    if r.status = .Passed then
      { st with results := st.results ++ [r], passed := st.passed + 1 }
    else
      match st.firstFailure with
      | none => { st with results := st.results ++ [r], firstFailure := some r }
      | some _ => { st with results := st.results ++ [r] }

/-- The Python executor's syntax-error signatures: the submission's
first testcase error is treated as a compile error when its text
contains `SyntaxError`, `IndentationError`, or `File "solution.py"`. -/
def isSyntaxSignature (msg : String) : Bool :=
  jsIncludes msg "SyntaxError" || jsIncludes msg "IndentationError" ||
    jsIncludes msg "File \"solution.py\""

/-- The JavaScript truthiness test `result.errorMessage` (undefined
and the empty string are falsy). -/
def errTruthy : Option String → Bool
  | some m => m ≠ ""
  | none => false

/-- The Python executor's first-testcase compile-error test
(`i === 0` is checked by the caller): an `Error` verdict with a truthy
message matching a syntax-error signature. -/
def pyAbortCheck (r : TcResult) : Bool :=
  r.status == .Error && errTruthy r.errorMessage &&
    isSyntaxSignature (r.errorMessage.getD "")

/-- Outcome of the testcase loop: the early compile-error return of
the interpreted executor (carrying the first testcase's error text) or
the final accumulator. -/
inductive LoopOut where
  | ceAbort (errorMessage : String)
  | finished (st : LoopState)

/-- The testcase loop.  Each iteration takes the classified result and
debug output of testcase `i`, sets `result.index = i + 1`, collects
debug output, performs the interpreted-language compile-error check
(first iteration only), and otherwise applies the visibility branch. -/
def runLoop (interpretedCE showHiddenInputs : Bool) :
    Nat → List (TcResult × String) → LoopState → LoopOut
  | _, [], st => .finished st
  | i, p :: rest, st =>
      let r := { p.1 with index := i + 1 }
      let st1 := collectDebug i p.2 st
      if interpretedCE = true ∧ i = 0 ∧ pyAbortCheck r = true then
        .ceAbort (r.errorMessage.getD "")
      else
        runLoop interpretedCE showHiddenInputs (i + 1) rest
          (visibilityStep showHiddenInputs i r st1)

/-- JavaScript template interpolation of a possibly-undefined string
(`undefined` prints as `"undefined"`). -/
def jsInterp : Option String → String
  | some s => s
  | none => "undefined"

/-- The post-loop assembly of `executeCode`: append the first hidden
failure to the report when redacting, then determine the overall
status — `AC`/`'Accepted'` when the tally equals the testcase count,
otherwise the first failure's kind mapped to `TLE`/`RE`/`WA` with a
message naming its (1-based) index.  `debugOutput` joins the collected
sections with blank lines. -/
def finishRun (showHiddenInputs : Bool) (total : Nat) (st : LoopState) : ExecResult :=
  let results :=
    match st.firstHiddenFailure, showHiddenInputs with
    | some f, false => st.results ++ [f]
    | _, _ => st.results
  let debugOutput :=
    if st.debugOutputs ≠ [] then some (String.intercalate "\n\n" st.debugOutputs)
    else none
  if st.passed = total then
    { status := .AC, message := "Accepted", testcaseResults := results,
      totalTestcases := total, passedTestcases := st.passed,
      debugOutput := debugOutput }
  else
    match st.firstFailure with
    | some f =>
        if f.status = .Timeout then
          { status := .TLE,
            message := "Time Limit Exceeded on testcase " ++ toString f.index,
            testcaseResults := results, totalTestcases := total,
            passedTestcases := st.passed, debugOutput := debugOutput }
        else if f.status = .Error then
          { status := .RE,
            message := "Runtime Error on testcase " ++ toString f.index ++ ": "
              ++ jsInterp f.errorMessage,
            testcaseResults := results, totalTestcases := total,
            passedTestcases := st.passed, debugOutput := debugOutput }
        else
          { status := .WA,
            message := "Wrong Answer on testcase " ++ toString f.index,
            testcaseResults := results, totalTestcases := total,
            passedTestcases := st.passed, debugOutput := debugOutput }
    | none =>
        { status := .AC, message := "", testcaseResults := results,
          totalTestcases := total, passedTestcases := st.passed,
          debugOutput := debugOutput }

/-- The Python executor's early compile-error return: status `CE`, a
message naming the first line of the error, no testcase verdicts, and
the heuristic diagnostics parse. -/
def pythonCERecord (total : Nat) (errMsg : String) : ExecResult :=
  { status := .CE, message := "Compilation Error: " ++ firstLine errMsg,
    testcaseResults := [], totalTestcases := total, passedTestcases := 0,
    compilationErrors := some (parsePythonSyntaxErrors errMsg) }

/-- Loop plus post-loop assembly over already-classified testcases. -/
def gradeRun (interpretedCE showHiddenInputs : Bool) (total : Nat)
    (pairs : List (TcResult × String)) : ExecResult :=
  match runLoop interpretedCE showHiddenInputs 0 pairs initLoopState with
  | .ceAbort m => pythonCERecord total m
  | .finished st => finishRun showHiddenInputs total st

/-- Classify every testcase of a submission.  Each testcase is paired
with the raw result and measured time of its harness subprocess (the
environmental part of `runTestcase`). -/
def classifyTestcases (parse : String → Option Json)
    (tcs : List (Testcase × RawResult × Nat)) : List (TcResult × String) :=
  tcs.map fun t => classifyRun parse t.1 t.2.1 t.2.2

/-- `PythonExecutor.executeCode` after workspace setup: no compile
step; classify and grade all testcases with the interpreted-language
compile-error check enabled. -/
def pythonExecuteCode (parse : String → Option Json) (showHiddenInputs : Bool)
    (tcs : List (Testcase × RawResult × Nat)) : ExecResult :=
  gradeRun true showHiddenInputs tcs.length (classifyTestcases parse tcs)

/-- `JavaExecutor.executeCode` after workspace setup, given the raw
result of the `javac` compile subprocess: a nonzero compile exit short
circuits to `CE` with the stderr (defaulted) as message and the parsed
diagnostics; otherwise classify and grade all testcases (no
interpreted-language check). -/
def javaExecuteCode (compileRaw : RawResult) (parse : String → Option Json)
    (showHiddenInputs : Bool) (tcs : List (Testcase × RawResult × Nat)) : ExecResult :=
  if compileRaw.exitCode ≠ 0 then
    { status := .CE, message := jsOrElse compileRaw.stderr "Compilation failed",
      testcaseResults := [], totalTestcases := tcs.length, passedTestcases := 0,
      compilationErrors := some (parseJavaCompilationErrors compileRaw.stderr) }
  else
    gradeRun false showHiddenInputs tcs.length (classifyTestcases parse tcs)

/-- The (re-indexed) verdict sequence of a submission: the classified
results with `index` set to the 1-based position, exactly as the loop
does. -/
def indexFrom (i : Nat) : List TcResult → List TcResult
  | [] => []
  | r :: rest => { r with index := i + 1 } :: indexFrom (i + 1) rest

/-- The verdicts of a whole submission, 1-based indices assigned. -/
def submissionVerdicts (parse : String → Option Json)
    (tcs : List (Testcase × RawResult × Nat)) : List TcResult :=
  indexFrom 0 ((classifyTestcases parse tcs).map Prod.fst)

/-- Whether the Python executor's syntax abort fires for a submission:
the check on the first classified verdict. -/
def pySyntaxAbort (parse : String → Option Json)
    (tcs : List (Testcase × RawResult × Nat)) : Bool :=
  match (submissionVerdicts parse tcs).head? with
  | some r => pyAbortCheck r
  | none => false

/-! ## Java type-codec generation (`mapTypeToJava`, `getParseCode`,
`getSerializeCode`)

These produce the type-dependent fragments of the generated Java
harness.  All three are total: unrecognized type strings fall through
to a default (the unchanged string, a commented `Object` binding, and
`String.valueOf(result)` respectively). -/

/-- The `if`-chain of `mapTypeToJava` over the lowered, trimmed type
string `t`; the final `else` returns the original `typeStr` as-is. -/
def mapTypeToJavaAux (typeStr t : String) : String :=
  if t = "integer" ∨ t = "int" then "int"
  else if t = "integer[]" ∨ t = "int[]" then "int[]"
  else if t = "integer[][]" ∨ t = "int[][]" then "int[][]"
  else if t = "string" then "String"
  else if t = "string[]" then "String[]"
  else if t = "string[][]" then "String[][]"
  else if t = "boolean" ∨ t = "bool" then "boolean"
  else if t = "boolean[]" ∨ t = "bool[]" then "boolean[]"
  else if t = "double" ∨ t = "float" then "double"
  else if t = "double[]" ∨ t = "float[]" then "double[]"
  else if t = "long" then "long"
  else if t = "long[]" then "long[]"
  else if t = "char" then "char"
  else if t = "char[]" then "char[]"
  else if t = "char[][]" then "char[][]"
  else if t = "list<integer>" ∨ t = "list<int>" then "List<Integer>"
  else if t = "list<string>" then "List<String>"
  else if t = "list<list<integer>>" ∨ t = "list<list<int>>" then "List<List<Integer>>"
  else if t = "list<list<string>>" then "List<List<String>>"
  else if t = "list<boolean>" ∨ t = "list<bool>" then "List<Boolean>"
  else typeStr

/-- `JavaExecutor.mapTypeToJava`: map a problem-metadata type string
(lowered and trimmed) to a Java type declaration; unrecognized inputs
are returned as-is. -/
def mapTypeToJava (typeStr : String) : String :=
  mapTypeToJavaAux typeStr (jsTrim (jsToLowerCase typeStr))

/-- The lowered type strings `mapTypeToJava` recognizes. -/
def recognizedTypeInputs : List String :=
  ["integer", "int", "integer[]", "int[]", "integer[][]", "int[][]",
   "string", "string[]", "string[][]", "boolean", "bool", "boolean[]",
   "bool[]", "double", "float", "double[]", "float[]", "long", "long[]",
   "char", "char[]", "char[][]", "list<integer>", "list<int>",
   "list<string>", "list<list<integer>>", "list<list<int>>",
   "list<list<string>>", "list<boolean>", "list<bool>"]

/-- The Java types handled by the `getParseCode` / `getSerializeCode`
switches (identical case sets). -/
def supportedJavaTypes : List String :=
  ["int", "long", "double", "boolean", "String", "char", "int[]",
   "long[]", "double[]", "boolean[]", "String[]", "char[]", "int[][]",
   "char[][]", "String[][]", "List<Integer>", "List<String>",
   "List<List<Integer>>", "List<List<String>>", "List<Boolean>"]

/-- The default branch of `getParseCode`: a comment plus a raw
`Object` binding — generated harness code, not an error. -/
def unsupportedParseFallback (paramName javaType : String) : String :=
  "        // Unsupported type: " ++ javaType ++ " for " ++ paramName ++
    "\n        Object " ++ paramName ++ " = data.get(\"" ++ paramName ++ "\");"

/-- `JavaExecutor.getParseCode`: the Java statement that decodes one
named parameter of the given Java type from the parsed input map. -/
def getParseCode (paramName javaType : String) : String :=
  if javaType = "int" then
    "        int " ++ paramName ++ " = ((Number) data.get(\"" ++ paramName ++ "\")).intValue();"
  else if javaType = "long" then
    "        long " ++ paramName ++ " = ((Number) data.get(\"" ++ paramName ++ "\")).longValue();"
  else if javaType = "double" then
    "        double " ++ paramName ++ " = ((Number) data.get(\"" ++ paramName ++ "\")).doubleValue();"
  else if javaType = "boolean" then
    "        boolean " ++ paramName ++ " = (Boolean) data.get(\"" ++ paramName ++ "\");"
  else if javaType = "String" then
    "        String " ++ paramName ++ " = (String) data.get(\"" ++ paramName ++ "\");"
  else if javaType = "char" then
    "        char " ++ paramName ++ " = ((String) data.get(\"" ++ paramName ++ "\")).charAt(0);"
  else if javaType = "int[]" then
    "        int[] " ++ paramName ++ " = toIntArray((java.util.List<?>) data.get(\"" ++ paramName ++ "\"));"
  else if javaType = "long[]" then
    "        long[] " ++ paramName ++ " = toLongArray((java.util.List<?>) data.get(\"" ++ paramName ++ "\"));"
  else if javaType = "double[]" then
    "        double[] " ++ paramName ++ " = toDoubleArray((java.util.List<?>) data.get(\"" ++ paramName ++ "\"));"
  else if javaType = "boolean[]" then
    "        boolean[] " ++ paramName ++ " = toBooleanArray((java.util.List<?>) data.get(\"" ++ paramName ++ "\"));"
  else if javaType = "String[]" then
    "        String[] " ++ paramName ++ " = toStringArray((java.util.List<?>) data.get(\"" ++ paramName ++ "\"));"
  else if javaType = "char[]" then
    "        char[] " ++ paramName ++ " = toCharArray((java.util.List<?>) data.get(\"" ++ paramName ++ "\"));"
  else if javaType = "int[][]" then
    "        int[][] " ++ paramName ++ " = toInt2DArray((java.util.List<?>) data.get(\"" ++ paramName ++ "\"));"
  else if javaType = "char[][]" then
    "        char[][] " ++ paramName ++ " = toChar2DArray((java.util.List<?>) data.get(\"" ++ paramName ++ "\"));"
  else if javaType = "String[][]" then
    "        String[][] " ++ paramName ++ " = toString2DArray((java.util.List<?>) data.get(\"" ++ paramName ++ "\"));"
  else if javaType = "List<Integer>" then
    "        List<Integer> " ++ paramName ++ " = toIntegerList((java.util.List<?>) data.get(\"" ++ paramName ++ "\"));"
  else if javaType = "List<String>" then
    "        List<String> " ++ paramName ++ " = toStringList((java.util.List<?>) data.get(\"" ++ paramName ++ "\"));"
  else if javaType = "List<List<Integer>>" then
    "        List<List<Integer>> " ++ paramName ++ " = toIntegerListList((java.util.List<?>) data.get(\"" ++ paramName ++ "\"));"
  else if javaType = "List<List<String>>" then
    "        List<List<String>> " ++ paramName ++ " = toStringListList((java.util.List<?>) data.get(\"" ++ paramName ++ "\"));"
  else if javaType = "List<Boolean>" then
    "        List<Boolean> " ++ paramName ++ " = toBooleanList((java.util.List<?>) data.get(\"" ++ paramName ++ "\"));"
  else unsupportedParseFallback paramName javaType

/-- `JavaExecutor.getSerializeCode`: the Java expression serializing
`result` of the given Java type to JSON; the default branch falls back
to `String.valueOf(result)`. -/
def getSerializeCode (javaType : String) : String :=
  if javaType = "int" ∨ javaType = "long" ∨ javaType = "double" ∨ javaType = "boolean" then
    "String.valueOf(result)"
  else if javaType = "String" then
    "\"\\\"\" + result.replace(\"\\\\\", \"\\\\\\\\\").replace(\"\\\"\", \"\\\\\\\"\") + \"\\\"\""
  else if javaType = "char" then
    "\"\\\"\" + result + \"\\\"\""
  else if javaType = "int[]" ∨ javaType = "long[]" ∨ javaType = "double[]" then
    "arrayToJson(result)"
  else if javaType = "boolean[]" then
    "boolArrayToJson(result)"
  else if javaType = "String[]" then
    "stringArrayToJson(result)"
  else if javaType = "char[]" then
    "charArrayToJson(result)"
  else if javaType = "int[][]" then
    "array2DToJson(result)"
  else if javaType = "char[][]" then
    "char2DArrayToJson(result)"
  else if javaType = "String[][]" then
    "string2DArrayToJson(result)"
  else if javaType = "List<Integer>" ∨ javaType = "List<String>" ∨ javaType = "List<Boolean>" then
    "listToJson(result)"
  else if javaType = "List<List<Integer>>" ∨ javaType = "List<List<String>>" then
    "listListToJson(result)"
  else "String.valueOf(result)"

/-! ## Workspace lifecycle (`createTempWorkspace` / `cleanupWorkspace`)

`executeCode` allocates a uniquely named workspace directory, then
runs its whole body inside `try { … } finally { cleanupWorkspace }`.
The filesystem is modelled as the set of directories present;
`fs.writeFile` calls may be made to throw by a fault oracle, modelling
infrastructure failures; `fs.rm(…, {recursive, force})` removes the
directory.  The body computations below mirror the source bodies:
write the solution file, write the runner file, (Java only) compile
with an early `CE` return, then the testcase loop with one input-file
write per iteration. -/

/-- Directories currently present, by identifier. -/
structure FsState where
  dirs : List Nat

/-- A JavaScript computation that either returns or throws. -/
inductive JsOutcome (α : Type) where
  | ok (a : α)
  | exn (e : String)

/-- Fault oracle for the `fs.writeFile` calls of one submission. -/
structure WriteFaults where
  solutionWriteFails : Bool
  runnerWriteFails : Bool
  inputWriteFails : Nat → Bool

/-- The testcase loop with the per-iteration `input.txt` write, which
may throw (propagating out of the loop). -/
def runLoopFs (f : Nat → Bool) (interpretedCE showHiddenInputs : Bool) :
    Nat → List (TcResult × String) → LoopState → JsOutcome LoopOut
  | _, [], st => .ok (.finished st)
  | i, p :: rest, st =>
      if f i then .exn "EIO: writeFile input.txt"
      else
        let r := { p.1 with index := i + 1 }
        let st1 := collectDebug i p.2 st
        if interpretedCE = true ∧ i = 0 ∧ pyAbortCheck r = true then
          .ok (.ceAbort (r.errorMessage.getD ""))
        else
          runLoopFs f interpretedCE showHiddenInputs (i + 1) rest
            (visibilityStep showHiddenInputs i r st1)

/-- Loop plus post-loop assembly, with input-write faults. -/
def gradeRunFs (f : Nat → Bool) (interpretedCE showHiddenInputs : Bool)
    (total : Nat) (pairs : List (TcResult × String)) : JsOutcome ExecResult :=
  match runLoopFs f interpretedCE showHiddenInputs 0 pairs initLoopState with
  | .exn e => .exn e
  | .ok (.ceAbort m) => .ok (pythonCERecord total m)
  | .ok (.finished st) => .ok (finishRun showHiddenInputs total st)

/-- The `try`-block body of `PythonExecutor.executeCode`: write
`solution.py`, write `runner.py`, run the loop. -/
def pythonBodyFs (faults : WriteFaults) (parse : String → Option Json)
    (showHiddenInputs : Bool) (tcs : List (Testcase × RawResult × Nat)) :
    JsOutcome ExecResult :=
  if faults.solutionWriteFails then .exn "EIO: writeFile solution.py"
  else if faults.runnerWriteFails then .exn "EIO: writeFile runner.py"
  else gradeRunFs faults.inputWriteFails true showHiddenInputs tcs.length
    (classifyTestcases parse tcs)

/-- The `try`-block body of `JavaExecutor.executeCode`: write
`Solution.java`, write `Runner.java`, compile (early `CE` return on
nonzero exit), run the loop. -/
def javaBodyFs (faults : WriteFaults) (compileRaw : RawResult)
    (parse : String → Option Json) (showHiddenInputs : Bool)
    (tcs : List (Testcase × RawResult × Nat)) : JsOutcome ExecResult :=
  if faults.solutionWriteFails then .exn "EIO: writeFile Solution.java"
  else if faults.runnerWriteFails then .exn "EIO: writeFile Runner.java"
  else if compileRaw.exitCode ≠ 0 then
    .ok { status := .CE, message := jsOrElse compileRaw.stderr "Compilation failed",
          testcaseResults := [], totalTestcases := tcs.length, passedTestcases := 0,
          compilationErrors := some (parseJavaCompilationErrors compileRaw.stderr) }
  else gradeRunFs faults.inputWriteFails false showHiddenInputs tcs.length
    (classifyTestcases parse tcs)

/-- `createTempWorkspace` followed by `try { body } finally
{ cleanupWorkspace }`: the workspace directory is created, the body
runs (its result or exception propagates), and the cleanup removal
runs unconditionally afterwards. -/
def withWorkspace (ws : Nat) (body : JsOutcome ExecResult) (fs : FsState) :
    JsOutcome ExecResult × FsState :=
  let fsAfterCreate : FsState := ⟨ws :: fs.dirs⟩
  (body, ⟨fsAfterCreate.dirs.filter (fun d => d ≠ ws)⟩)

/-- `PythonExecutor.executeCode` with its workspace lifecycle. -/
def pythonExecuteCodeFs (ws : Nat) (faults : WriteFaults)
    (parse : String → Option Json) (showHiddenInputs : Bool)
    (tcs : List (Testcase × RawResult × Nat)) (fs : FsState) :
    JsOutcome ExecResult × FsState :=
  withWorkspace ws (pythonBodyFs faults parse showHiddenInputs tcs) fs

/-- `JavaExecutor.executeCode` with its workspace lifecycle. -/
def javaExecuteCodeFs (ws : Nat) (faults : WriteFaults) (compileRaw : RawResult)
    (parse : String → Option Json) (showHiddenInputs : Bool)
    (tcs : List (Testcase × RawResult × Nat)) (fs : FsState) :
    JsOutcome ExecResult × FsState :=
  withWorkspace ws (javaBodyFs faults compileRaw parse showHiddenInputs tcs) fs

/-! ## Specification-side descriptions of the loop -/

/-- Left-biased choice: the first-set semantics of the
`if (!tracker) tracker = value` updates. -/
def orElseOpt {α : Type} : Option α → Option α → Option α
  | none, b => b
  | some a, _ => some a

/-- A placeholder verdict record (default for list indexing). -/
def dummyTc : TcResult :=
  { index := 0, status := .Passed, input := .null, expected := .null,
    executionTime := 0 }

/-- Number of `Passed` verdicts in a sequence. -/
def countPassed : List TcResult → Nat
  | [] => 0
  | r :: rest => (if r.status = .Passed then 1 else 0) + countPassed rest

/-- The first verdict (in order) that is not `Passed`. -/
def firstNonPassed : List TcResult → Option TcResult
  | [] => none
  | r :: rest => if r.status = .Passed then firstNonPassed rest else some r

/-- The verdicts reported in full: all of them when hidden inputs are
shown, otherwise only those at loop index < 3. -/
def visibleSpec (sh : Bool) (i : Nat) : List TcResult → List TcResult
  | [] => []
  | r :: rest =>
      if sh = false ∧ 3 ≤ i then visibleSpec sh (i + 1) rest
      else r :: visibleSpec sh (i + 1) rest

/-- The first non-passing verdict among the hidden testcases. -/
def firstHiddenSpec (sh : Bool) (i : Nat) : List TcResult → Option TcResult
  | [] => none
  | r :: rest =>
      if sh = false ∧ 3 ≤ i ∧ r.status ≠ .Passed then some r
      else firstHiddenSpec sh (i + 1) rest

/-- The labelled nonempty debug sections, in testcase order. -/
def debugSpec (i : Nat) : List (TcResult × String) → List String
  | [] => []
  | p :: rest =>
      if p.2 ≠ "" then
        ("[Testcase " ++ toString (i + 1) ++ "]\n" ++ p.2) :: debugSpec (i + 1) rest
      else debugSpec (i + 1) rest

/-- Option-to-list: the appended hidden-failure record, if any. -/
def optToList {α : Type} : Option α → List α
  | none => []
  | some a => [a]

/-- The loop's final accumulator, described by the specification-side
functions. -/
def finalState (sh : Bool) (pairs : List (TcResult × String)) : LoopState :=
  { results := visibleSpec sh 0 (indexFrom 0 (pairs.map Prod.fst)),
    debugOutputs := debugSpec 0 pairs,
    passed := countPassed (indexFrom 0 (pairs.map Prod.fst)),
    firstFailure := firstNonPassed (indexFrom 0 (pairs.map Prod.fst)),
    firstHiddenFailure := firstHiddenSpec sh 0 (indexFrom 0 (pairs.map Prod.fst)) }

theorem orElseOpt_none_right {α : Type} (a : Option α) : orElseOpt a none = a := by
  cases a <;> rfl

theorem orElseOpt_none_left {α : Type} (b : Option α) : orElseOpt none b = b := rfl

theorem orElseOpt_some_left {α : Type} (a : α) (b : Option α) :
    orElseOpt (some a) b = some a := rfl

theorem runLoop_false_eq (sh : Bool) :
    ∀ (pairs : List (TcResult × String)) (i : Nat) (st : LoopState),
    runLoop false sh i pairs st = .finished {
      results := st.results ++ visibleSpec sh i (indexFrom i (pairs.map Prod.fst)),
      debugOutputs := st.debugOutputs ++ debugSpec i pairs,
      passed := st.passed + countPassed (indexFrom i (pairs.map Prod.fst)),
      firstFailure := orElseOpt st.firstFailure
        (firstNonPassed (indexFrom i (pairs.map Prod.fst))),
      firstHiddenFailure := orElseOpt st.firstHiddenFailure
        (firstHiddenSpec sh i (indexFrom i (pairs.map Prod.fst))) } := by
  intro pairs
  induction pairs with
  | nil =>
      intro i st
      simp [runLoop, indexFrom, visibleSpec, debugSpec, countPassed,
        firstNonPassed, firstHiddenSpec, orElseOpt_none_right]
  | cons p rest ih =>
      intro i st
      simp only [runLoop, false_and, if_false, List.map_cons, indexFrom]
      rw [ih]
      rcases st with ⟨res, dbg, pass, ff, fh⟩
      by_cases hd : p.2 = "" <;> by_cases hv : sh = false ∧ 3 ≤ i <;>
        by_cases hp : p.1.status = TcStatus.Passed <;>
        cases ff <;> cases fh <;>
        simp [visibilityStep, collectDebug, hd, hv, hp, visibleSpec, firstNonPassed,
          firstHiddenSpec, countPassed, debugSpec, orElseOpt] <;>
        omega

theorem runLoop_false_init (sh : Bool) (pairs : List (TcResult × String)) :
    runLoop false sh 0 pairs initLoopState = .finished (finalState sh pairs) := by
  rw [runLoop_false_eq]
  simp [initLoopState, finalState, orElseOpt]

theorem pyAbortCheck_set_index (r : TcResult) (n : Nat) :
    pyAbortCheck { r with index := n } = pyAbortCheck r := rfl

theorem runLoop_true_succ (sh : Bool) :
    ∀ (pairs : List (TcResult × String)) (i : Nat) (st : LoopState),
    runLoop true sh (i + 1) pairs st = runLoop false sh (i + 1) pairs st := by
  intro pairs
  induction pairs with
  | nil => intro i st; rfl
  | cons p rest ih =>
      intro i st
      simp only [runLoop, Nat.succ_ne_zero, false_and, and_false, if_false]
      exact ih (i + 1) _

theorem runLoop_true_cons_noabort (sh : Bool) (p : TcResult × String)
    (rest : List (TcResult × String)) (st : LoopState)
    (h : pyAbortCheck p.1 = false) :
    runLoop true sh 0 (p :: rest) st = runLoop false sh 0 (p :: rest) st := by
  simp only [runLoop, pyAbortCheck_set_index, h, Bool.false_eq_true, and_false,
    false_and, if_false]
  exact runLoop_true_succ sh rest 0 _

theorem runLoop_true_cons_abort (sh : Bool) (p : TcResult × String)
    (rest : List (TcResult × String)) (st : LoopState)
    (h : pyAbortCheck p.1 = true) :
    runLoop true sh 0 (p :: rest) st = .ceAbort (p.1.errorMessage.getD "") := by
  simp only [runLoop, pyAbortCheck_set_index, h]
  simp

theorem finishRun_status_ne_CE (sh : Bool) (total : Nat) (st : LoopState) :
    (finishRun sh total st).status ≠ .CE := by
  unfold finishRun
  rcases st.firstFailure with _ | f <;> split_ifs <;> simp <;> split_ifs <;> simp

theorem pythonExecuteCode_noabort (parse : String → Option Json)
    (sh : Bool) (tcs : List (Testcase × RawResult × Nat))
    (h : pySyntaxAbort parse tcs = false) :
    pythonExecuteCode parse sh tcs =
      finishRun sh tcs.length (finalState sh (classifyTestcases parse tcs)) := by
  unfold pythonExecuteCode gradeRun
  cases hc : classifyTestcases parse tcs with
  | nil => simp [runLoop, finalState, initLoopState, indexFrom, visibleSpec,
      debugSpec, countPassed, firstNonPassed, firstHiddenSpec]
  | cons p rest =>
      have hab : pyAbortCheck p.1 = false := by
        unfold pySyntaxAbort submissionVerdicts at h
        rw [hc] at h
        simpa [indexFrom, pyAbortCheck_set_index] using h
      rw [runLoop_true_cons_noabort sh p rest _ hab, runLoop_false_init]

theorem pythonExecuteCode_abort (parse : String → Option Json)
    (sh : Bool) (tcs : List (Testcase × RawResult × Nat))
    (h : pySyntaxAbort parse tcs = true) :
    ∃ p rest, classifyTestcases parse tcs = p :: rest ∧
      pythonExecuteCode parse sh tcs =
        pythonCERecord tcs.length (p.1.errorMessage.getD "") := by
  cases hc : classifyTestcases parse tcs with
  | nil =>
      unfold pySyntaxAbort submissionVerdicts at h
      rw [hc] at h
      simp [indexFrom] at h
  | cons p rest =>
      refine ⟨p, rest, rfl, ?_⟩
      have hab : pyAbortCheck p.1 = true := by
        unfold pySyntaxAbort submissionVerdicts at h
        rw [hc] at h
        simpa [indexFrom, pyAbortCheck_set_index] using h
      unfold pythonExecuteCode gradeRun
      rw [hc, runLoop_true_cons_abort sh p rest _ hab]

theorem javaExecuteCode_ok (compileRaw : RawResult) (parse : String → Option Json)
    (sh : Bool) (tcs : List (Testcase × RawResult × Nat))
    (h : compileRaw.exitCode = 0) :
    javaExecuteCode compileRaw parse sh tcs =
      finishRun sh tcs.length (finalState sh (classifyTestcases parse tcs)) := by
  unfold javaExecuteCode gradeRun
  rw [runLoop_false_init]
  simp [h]

theorem countPassed_le (rs : List TcResult) : countPassed rs ≤ rs.length := by
  induction rs with
  | nil => simp [countPassed]
  | cons r rest ih => simp [countPassed]; split_ifs <;> omega

theorem countPassed_eq_length_iff (rs : List TcResult) :
    countPassed rs = rs.length ↔ ∀ r ∈ rs, r.status = .Passed := by
  induction rs with
  | nil => simp [countPassed]
  | cons r rest ih =>
      have := countPassed_le rest
      simp only [countPassed, List.length_cons, List.mem_cons]
      constructor
      · intro h
        split_ifs at h with hr
        · intro x hx
          rcases hx with hx | hx
          · rw [hx]; exact hr
          · exact (ih.mp (by omega)) x hx
        · omega
      · intro h
        have hr : r.status = .Passed := h r (Or.inl rfl)
        rw [if_pos hr, ih.mpr fun x hx => h x (Or.inr hx)]
        omega

theorem firstNonPassed_none_iff (rs : List TcResult) :
    firstNonPassed rs = none ↔ ∀ r ∈ rs, r.status = .Passed := by
  induction rs with
  | nil => simp [firstNonPassed]
  | cons r rest ih =>
      simp only [firstNonPassed, List.mem_cons]
      split_ifs with hr
      · rw [ih]
        constructor
        · intro h x hx
          rcases hx with hx | hx
          · rw [hx]; exact hr
          · exact h x hx
        · intro h x hx; exact h x (Or.inr hx)
      · constructor
        · intro h
          exact h.elim
        · intro h
          exact absurd (h r (Or.inl rfl)) hr

theorem firstNonPassed_at (rs : List TcResult) :
    ∀ (k : Nat), k < rs.length →
    (∀ j, j < k → (rs.getD j dummyTc).status = .Passed) →
    (rs.getD k dummyTc).status ≠ .Passed →
    firstNonPassed rs = some (rs.getD k dummyTc) := by
  induction rs with
  | nil => intro k hk; simp at hk
  | cons r rest ih =>
      intro k hk hpre hk'
      cases k with
      | zero =>
          simp only [List.getD_cons_zero] at hk'
          simp [firstNonPassed, hk']
      | succ k =>
          have hr : r.status = .Passed := by
            have := hpre 0 (Nat.succ_pos k)
            simpa using this
          simp only [List.getD_cons_succ] at hk' ⊢
          simp only [firstNonPassed, hr, if_pos]
          exact ih k (by simpa using hk) (fun j hj => by
            have := hpre (j + 1) (by omega)
            simpa using this) hk'

theorem indexFrom_length (i : Nat) (rs : List TcResult) :
    (indexFrom i rs).length = rs.length := by
  induction rs generalizing i with
  | nil => rfl
  | cons r rest ih => simp [indexFrom, ih]

theorem indexFrom_getD (rs : List TcResult) :
    ∀ (i k : Nat), k < rs.length →
    (indexFrom i rs).getD k dummyTc = { rs.getD k dummyTc with index := i + k + 1 } := by
  induction rs with
  | nil => intro i k hk; simp at hk
  | cons r rest ih =>
      intro i k hk
      cases k with
      | zero => simp [indexFrom]
      | succ k =>
          simp only [indexFrom, List.getD_cons_succ]
          rw [ih (i + 1) k (by simp only [List.length_cons] at hk; omega)]
          have harith : i + 1 + k + 1 = i + (k + 1) + 1 := by omega
          rw [harith]

theorem countPassed_indexFrom (i : Nat) (rs : List TcResult) :
    countPassed (indexFrom i rs) = countPassed rs := by
  induction rs generalizing i with
  | nil => rfl
  | cons r rest ih => simp [indexFrom, countPassed, ih]

theorem visibleSpec_false_take (rs : List TcResult) :
    ∀ (i : Nat), visibleSpec false i rs = rs.take (3 - i) := by
  induction rs with
  | nil => intro i; simp [visibleSpec]
  | cons r rest ih =>
      intro i
      by_cases hi : 3 ≤ i
      · simp [visibleSpec, hi, Nat.sub_eq_zero_of_le hi, ih]
        omega
      · have h3 : 3 - i = (3 - (i + 1)) + 1 := by omega
        simp [visibleSpec, hi, ih, h3]

theorem visibleSpec_true (rs : List TcResult) :
    ∀ (i : Nat), visibleSpec true i rs = rs := by
  induction rs with
  | nil => intro i; simp [visibleSpec]
  | cons r rest ih => intro i; simp [visibleSpec, ih]

theorem firstHiddenSpec_false_drop (rs : List TcResult) :
    ∀ (i : Nat), firstHiddenSpec false i rs = firstNonPassed (rs.drop (3 - i)) := by
  induction rs with
  | nil => intro i; simp [firstHiddenSpec, firstNonPassed]
  | cons r rest ih =>
      intro i
      by_cases hi : 3 ≤ i
      · simp only [firstHiddenSpec, Nat.sub_eq_zero_of_le hi, List.drop_zero,
          firstNonPassed]
        by_cases hr : r.status = .Passed
        · simp [hr, ih, Nat.sub_eq_zero_of_le (by omega : 3 ≤ i + 1)]
        · simp [hr, hi]
      · have h3 : 3 - i = (3 - (i + 1)) + 1 := by omega
        simp [firstHiddenSpec, hi, ih, h3]

theorem firstHiddenSpec_true (rs : List TcResult) :
    ∀ (i : Nat), firstHiddenSpec true i rs = none := by
  induction rs with
  | nil => intro i; simp [firstHiddenSpec]
  | cons r rest ih => intro i; simp [firstHiddenSpec, ih]

theorem submissionVerdicts_length (parse : String → Option Json)
    (tcs : List (Testcase × RawResult × Nat)) :
    (submissionVerdicts parse tcs).length = tcs.length := by
  unfold submissionVerdicts classifyTestcases
  rw [indexFrom_length]
  simp

theorem strFirstMatch_none_iff (sep : List Char) :
    ∀ (s : List Char), strFirstMatch sep s = none ↔ ∀ i, ¬ sep <+: s.drop i := by
  intro s
  induction s with
  | nil =>
      cases hs : sep with
      | nil => simp [strFirstMatch]
      | cons c cs => simp [strFirstMatch]
  | cons c rest ih =>
      simp only [strFirstMatch]
      split_ifs with hp
      · rw [ List.isPrefixOf_iff_prefix] at hp
        constructor
        · intro h; exact absurd h (by simp)
        · intro h
          exact absurd hp (by simpa using h 0)
      · rw [ List.isPrefixOf_iff_prefix] at hp
        simp only [Option.map_eq_none', ih]
        constructor
        · intro h i
          cases i with
          | zero => simpa using hp
          | succ i => simpa using h i
        · intro h i
          simpa using h (i + 1)

theorem strFirstMatch_some_min (sep : List Char) :
    ∀ (s : List Char) (i : Nat), sep <+: s.drop i →
      (∀ j, j < i → ¬ sep <+: s.drop j) →
      strFirstMatch sep s = some i := by
  intro s
  induction s with
  | nil =>
      intro i h1 h2
      have hsep : sep = [] := by
        simpa using List.prefix_nil.mp (by simpa using h1)
      have hi : i = 0 := by
        by_contra hne
        exact h2 0 (Nat.pos_of_ne_zero hne) (by simp [hsep])
      simp [strFirstMatch, hsep, hi]
  | cons c rest ih =>
      intro i h1 h2
      cases i with
      | zero =>
          simp only [List.drop_zero] at h1
          simp [strFirstMatch, List.isPrefixOf_iff_prefix, h1]
      | succ i =>
          have hp : ¬ sep <+: (c :: rest) := by simpa using h2 0 (Nat.succ_pos i)
          simp only [strFirstMatch, List.isPrefixOf_iff_prefix, if_neg hp]
          rw [ih i (by simpa using h1) (fun j hj => by simpa using h2 (j + 1) (by omega))]
          rfl

/-- C9: the split between debug output and the JSON candidate happens
at the first occurrence of the sentinel `===RESULT_JSON_START===`: the
trimmed text before it becomes the debug output and the trimmed text
after it becomes the JSON candidate; when the sentinel does not occur
in stdout at all, the debug output is empty and the entire stdout is
the JSON candidate. -/
theorem sentinel_split_first_occurrence (stdout : String) :
    ((∀ i, ¬ RESULT_SEPARATOR.data <+: stdout.data.drop i) →
      splitOutput stdout = ("", stdout)) ∧
    (∀ i, RESULT_SEPARATOR.data <+: stdout.data.drop i →
      (∀ j, j < i → ¬ RESULT_SEPARATOR.data <+: stdout.data.drop j) →
      splitOutput stdout =
        (jsTrim (String.mk (stdout.data.take i)),
         jsTrim (String.mk (stdout.data.drop (i + RESULT_SEPARATOR.length))))) := by
  constructor
  · intro h
    unfold splitOutput jsIndexOf
    rw [(strFirstMatch_none_iff _ _).mpr h]
  · intro i h1 h2
    unfold splitOutput jsIndexOf
    rw [strFirstMatch_some_min _ _ i h1 h2]

/-- Witness for C9 at a concrete stdout: debug text, the sentinel (at
index 6), then the result line. -/
theorem sentinel_split_first_occurrence_witness :
    splitOutput "debug ===RESULT_JSON_START=== [1,2]" = ("debug", "[1,2]") := by
  have h := (sentinel_split_first_occurrence "debug ===RESULT_JSON_START=== [1,2]").2 6
    (by decide) (by decide)
  rw [h]
  decide

/-- C10: on the empty testcase sequence (compile succeeded or
skipped), `executeCode` returns `AC` / `'Accepted'` with zero total,
zero passed and no testcase results — not an error status. -/
theorem empty_testcases_accepted (parse : String → Option Json) (sh : Bool)
    (compileRaw : RawResult) (h : compileRaw.exitCode = 0) :
    pythonExecuteCode parse sh [] =
      { status := .AC, message := "Accepted", testcaseResults := [],
        totalTestcases := 0, passedTestcases := 0 } ∧
    javaExecuteCode compileRaw parse sh [] =
      { status := .AC, message := "Accepted", testcaseResults := [],
        totalTestcases := 0, passedTestcases := 0 } := by
  constructor
  · rfl
  · simp only [javaExecuteCode, h]
    norm_num
    rfl

/-- Witness for C10: a compile result with exit code 0. -/
theorem empty_testcases_accepted_witness :
    javaExecuteCode ⟨"", "", 0⟩ (fun _ => none) true [] =
      { status := .AC, message := "Accepted", testcaseResults := [],
        totalTestcases := 0, passedTestcases := 0 } :=
  (empty_testcases_accepted (fun _ => none) true ⟨"", "", 0⟩ rfl).2

/-- For a run that exits 0 in time and whose post-sentinel output
parses to a JSON value other than `null`, `classifyRun` produces the
comparison record: the `parsed.result` access succeeds (yielding the
`result` property for objects and `undefined` otherwise) and the
verdict is `Passed`/`Failed` by `compareOutputs`. -/
theorem classifyRun_parsed_nonnull (parse : String → Option Json)
    (tc : Testcase) (raw : RawResult) (t : Nat) (parsed : Json)
    (h1 : raw.exitCode = 0) (h2 : t < TESTCASE_TIMEOUT_MS)
    (h3 : parse (splitOutput raw.stdout).2 = some parsed)
    (h4 : parsed ≠ Json.null) :
    (classifyRun parse tc raw t).1 =
      { index := 0,
        status := if (match jsonGet parsed "result" with
            | some a => compareOutputs tc.output a
            | none => false) = true then TcStatus.Passed else TcStatus.Failed,
        input := tc.input, expected := tc.output,
        actual := jsonGet parsed "result", errorMessage := none,
        executionTime := t } := by
  simp only [classifyRun]
  rw [if_neg (by push_neg; exact ⟨by omega, by omega⟩), if_neg (by simp [h1]), h3]
  cases parsed with
  | null => exact absurd rfl h4
  | bool b => rfl
  | num n => rfl
  | str s => rfl
  | arr l => rfl
  | obj f => rfl

/-- C6 (amended): the verdict classification of a single testcase run,
in order of precedence — `Timeout` when the process was killed by the
timeout (`exitCode = -1`) or the measured time reaches the budget;
otherwise `Error` with the stderr text (or the fixed string
`'Runtime error'` when stderr is empty) on a nonzero exit; otherwise
`Error` with a parse-failure message naming the whole stdout when the
post-sentinel output does not parse as JSON, or parses to JSON `null`
(the `parsed.result` property access on `null` throws inside the same
try block and reaches the same catch); otherwise `Passed` or `Failed`
by output comparison.  No other verdict is possible. -/
theorem runTestcase_classification (parse : String → Option Json)
    (tc : Testcase) (raw : RawResult) (t : Nat) :
    ((raw.exitCode = -1 ∨ TESTCASE_TIMEOUT_MS ≤ t) →
      (classifyRun parse tc raw t).1.status = .Timeout) ∧
    (raw.exitCode ≠ -1 → t < TESTCASE_TIMEOUT_MS → raw.exitCode ≠ 0 →
      (classifyRun parse tc raw t).1.status = .Error ∧
      (classifyRun parse tc raw t).1.errorMessage =
        some (if raw.stderr = "" then "Runtime error" else raw.stderr)) ∧
    (raw.exitCode = 0 → t < TESTCASE_TIMEOUT_MS →
      parse (splitOutput raw.stdout).2 = none →
      (classifyRun parse tc raw t).1.status = .Error ∧
      (classifyRun parse tc raw t).1.errorMessage =
        some ("Failed to parse output: " ++ raw.stdout)) ∧
    (raw.exitCode = 0 → t < TESTCASE_TIMEOUT_MS →
      parse (splitOutput raw.stdout).2 = some Json.null →
      (classifyRun parse tc raw t).1.status = .Error ∧
      (classifyRun parse tc raw t).1.errorMessage =
        some ("Failed to parse output: " ++ raw.stdout)) ∧
    (∀ parsed, raw.exitCode = 0 → t < TESTCASE_TIMEOUT_MS →
      parse (splitOutput raw.stdout).2 = some parsed → parsed ≠ Json.null →
      ((classifyRun parse tc raw t).1.status = .Passed ∨
        (classifyRun parse tc raw t).1.status = .Failed) ∧
      ((classifyRun parse tc raw t).1.status = .Passed ↔
        ∃ a, jsonGet parsed "result" = some a ∧
          Json.stringify tc.output = Json.stringify a)) := by
  refine ⟨?_, ?_, ?_, ?_, ?_⟩
  · intro h
    simp only [classifyRun, if_pos h]
  · intro h1 h2 h3
    simp only [classifyRun, jsOrElse]
    rw [if_neg (by push_neg; exact ⟨h1, by omega⟩), if_pos h3]
    exact ⟨rfl, rfl⟩
  · intro h1 h2 h3
    simp only [classifyRun]
    rw [if_neg (by push_neg; exact ⟨by omega, by omega⟩), if_neg (by simp [h1]), h3]
    exact ⟨rfl, rfl⟩
  · intro h1 h2 h3
    simp only [classifyRun]
    rw [if_neg (by push_neg; exact ⟨by omega, by omega⟩), if_neg (by simp [h1]), h3]
    exact ⟨rfl, rfl⟩
  · intro parsed h1 h2 h3 h4
    rw [classifyRun_parsed_nonnull parse tc raw t parsed h1 h2 h3 h4]
    cases ha : jsonGet parsed "result" with
    | none =>
        simp only [ha]
        refine ⟨Or.inr rfl, ?_⟩
        constructor
        · intro h
          exact TcStatus.noConfusion h
        · rintro ⟨a', ha', heq⟩
          exact Option.noConfusion ha'
    | some a =>
        simp only [ha]
        by_cases hc : compareOutputs tc.output a = true
        · rw [if_pos hc]
          simp only [compareOutputs, beq_iff_eq] at hc
          exact ⟨Or.inl rfl, ⟨fun _ => ⟨a, rfl, hc⟩, fun _ => rfl⟩⟩
        · rw [if_neg hc]
          simp only [compareOutputs, beq_iff_eq] at hc
          refine ⟨Or.inr rfl, ?_⟩
          constructor
          · intro h
            exact TcStatus.noConfusion h
          · rintro ⟨a', ha', heq⟩
            cases ha'
            exact absurd heq hc

/-- Counterexample to C6 as stated: (i) a nonzero exit with EMPTY
stderr yields `errorMessage = 'Runtime error'`, not the stderr text;
(ii) a clean in-time exit whose post-sentinel output is the JSON text
`null` parses successfully, yet the verdict is `Error` with the
parse-failure message (the `parsed.result` access throws), not a
comparison verdict. -/
theorem runtime_error_default_message_counterexample :
    ((classifyRun (fun _ => none) ⟨Json.null, Json.null⟩ ⟨"", "", 1⟩ 0).1.status = .Error ∧
     (classifyRun (fun _ => none) ⟨Json.null, Json.null⟩ ⟨"", "", 1⟩ 0).1.errorMessage =
       some "Runtime error" ∧
     (⟨"", "", 1⟩ : RawResult).stderr = "") ∧
    ((classifyRun (fun _ => some Json.null) ⟨Json.null, Json.null⟩
        ⟨"null", "", 0⟩ 0).1.status = .Error ∧
     (classifyRun (fun _ => some Json.null) ⟨Json.null, Json.null⟩
        ⟨"null", "", 0⟩ 0).1.errorMessage =
       some "Failed to parse output: null") := by
  refine ⟨⟨rfl, rfl, rfl⟩, rfl, by decide⟩

/-- Witness for C6 at a concrete runtime error with nonempty stderr:
the stderr text is the error message. -/
theorem runTestcase_classification_witness :
    (classifyRun (fun _ => none) ⟨Json.null, Json.null⟩ ⟨"", "boom", 2⟩ 0).1.status = .Error ∧
    (classifyRun (fun _ => none) ⟨Json.null, Json.null⟩ ⟨"", "boom", 2⟩ 0).1.errorMessage =
      some "boom" := by
  have h := (runTestcase_classification (fun _ => none) ⟨Json.null, Json.null⟩
    ⟨"", "boom", 2⟩ 0).2.1 (by decide) (by decide) (by decide)
  refine ⟨h.1, ?_⟩
  rw [h.2]
  decide

/-- C4 (amended): for a run that exits 0 in time and whose
post-sentinel output parses to a JSON value other than `null` (for
`null`, the `parsed.result` access throws and the verdict is `Error`
instead), the verdict is `Passed` exactly when the decoded actual
result exists and its JSON serialization equals that of
`expectedOutput` (deep structural equality with object key order
significant — `JSON.stringify` renders fields in insertion order), and
`Failed` otherwise. -/
theorem output_comparison_serialization (parse : String → Option Json)
    (tc : Testcase) (raw : RawResult) (t : Nat) (parsed : Json)
    (h1 : raw.exitCode = 0) (h2 : t < TESTCASE_TIMEOUT_MS)
    (h3 : parse (splitOutput raw.stdout).2 = some parsed)
    (h4 : parsed ≠ Json.null) :
    ((classifyRun parse tc raw t).1.status = .Passed ↔
      ∃ a, jsonGet parsed "result" = some a ∧
        Json.stringify tc.output = Json.stringify a) ∧
    ((classifyRun parse tc raw t).1.status = .Failed ↔
      ¬ ∃ a, jsonGet parsed "result" = some a ∧
        Json.stringify tc.output = Json.stringify a) := by
  rw [classifyRun_parsed_nonnull parse tc raw t parsed h1 h2 h3 h4]
  cases ha : jsonGet parsed "result" with
  | none =>
      simp only [ha]
      constructor
      · constructor
        · intro h
          exact TcStatus.noConfusion h
        · rintro ⟨a', ha', heq⟩
          exact Option.noConfusion ha'
      · constructor
        · rintro h ⟨a', ha', heq⟩
          exact Option.noConfusion ha'
        · intro h
          rfl
  | some a =>
      simp only [ha]
      by_cases hc : compareOutputs tc.output a = true
      · rw [if_pos hc]
        simp only [compareOutputs, beq_iff_eq] at hc
        constructor
        · exact ⟨fun _ => ⟨a, rfl, hc⟩, fun _ => rfl⟩
        · constructor
          · intro h
            exact TcStatus.noConfusion h
          · intro h
            exact absurd ⟨a, rfl, hc⟩ h
      · rw [if_neg hc]
        simp only [compareOutputs, beq_iff_eq] at hc
        constructor
        · constructor
          · intro h
            exact TcStatus.noConfusion h
          · rintro ⟨a', ha', heq⟩
            cases ha'
            exact absurd heq hc
        · constructor
          · rintro h ⟨a', ha', heq⟩
            cases ha'
            exact absurd heq hc
          · intro h
            rfl

/-- Witness for C4 at a concrete passing run: the harness printed the
expected array. -/
theorem output_comparison_serialization_witness :
    (classifyRun (fun _ => some (Json.obj [("result", Json.arr [Json.num 1, Json.num 2])]))
      ⟨Json.null, Json.arr [Json.num 1, Json.num 2]⟩ ⟨"", "", 0⟩ 0).1.status = .Passed := by
  have h := (output_comparison_serialization
    (fun _ => some (Json.obj [("result", Json.arr [Json.num 1, Json.num 2])]))
    ⟨Json.null, Json.arr [Json.num 1, Json.num 2]⟩ ⟨"", "", 0⟩ 0
    (Json.obj [("result", Json.arr [Json.num 1, Json.num 2])])
    (by decide) (by decide) rfl
    (by intro hcon; exact Json.noConfusion hcon)).1
  exact h.mpr ⟨Json.arr [Json.num 1, Json.num 2], rfl, rfl⟩

/-- Counterexample to C4 as stated: (i) two JSON objects with the same
keys and values in different field order are deep-structurally equal
irrespective of key order, yet `compareOutputs` (stringify equality)
distinguishes them, so the verdict is `Failed`, not `Passed`;
(ii) the post-sentinel output `null` parses as JSON, yet the verdict
is `Error` — neither `Passed` nor `Failed` by comparison. -/
theorem output_comparison_key_order_counterexample :
    (jsonDeepEqUnordered (Json.obj [("a", Json.num 1), ("b", Json.num 2)])
      (Json.obj [("b", Json.num 2), ("a", Json.num 1)]) = true ∧
    (classifyRun
      (fun _ => some (Json.obj [("result", Json.obj [("b", Json.num 2), ("a", Json.num 1)])]))
      ⟨Json.null, Json.obj [("a", Json.num 1), ("b", Json.num 2)]⟩
      ⟨"", "", 0⟩ 0).1.status = .Failed) ∧
    (classifyRun (fun _ => some Json.null) ⟨Json.null, Json.null⟩
      ⟨"null", "", 0⟩ 0).1.status = .Error := by
  refine ⟨⟨?_, ?_⟩, rfl⟩
  · simp [jsonDeepEqUnordered, jsonDeepEqUnorderedFields, List.lookup]
  · decide

/-- A stderr line shaped by the javac diagnostic grammar
`(.+?\.java):(\d+):\s*(error|warning):\s*(.+)$`: a nonempty file part
ending in `.java`, a colon, nonempty digits, a colon, whitespace, a
severity word, a colon, and a nonempty message. -/
def JavacDiagLine (l : List Char) : Prop :=
  ∃ (p ds ws msg sev : List Char),
    p ≠ [] ∧ ds ≠ [] ∧ (∀ c ∈ ds, c.isDigit = true) ∧
    (∀ c ∈ ws, c.isWhitespace = true) ∧
    (sev = "error".data ∨ sev = "warning".data) ∧ msg ≠ [] ∧
    l = p ++ ".java".data ++ ':' :: ds ++ ':' :: ws ++ sev ++ ':' :: msg

theorem dropLit_nil (s : List Char) : dropLit [] s = some s := by
  cases s <;> rfl

theorem dropLit_append : ∀ (p r : List Char), dropLit p (p ++ r) = some r := by
  intro p
  induction p with
  | nil => intro r; exact dropLit_nil r
  | cons c cs ih => intro r; simp [dropLit, ih]

theorem leadingDigits_digits_colon :
    ∀ (ds r : List Char), (∀ c ∈ ds, c.isDigit = true) →
      leadingDigits (ds ++ ':' :: r) = (ds, ':' :: r) := by
  intro ds
  induction ds with
  | nil =>
      intro r _
      simp [leadingDigits, Char.isDigit]
  | cons c cs ih =>
      intro r h
      have hc : c.isDigit = true := h c (List.mem_cons_self c cs)
      simp [leadingDigits, hc, ih r (fun x hx => h x (List.mem_cons_of_mem c hx))]

theorem dropWhile_ws_append :
    ∀ (ws r : List Char), (∀ c ∈ ws, c.isWhitespace = true) →
      (∀ c, r.head? = some c → c.isWhitespace = false) →
      List.dropWhile Char.isWhitespace (ws ++ r) = r := by
  intro ws
  induction ws with
  | nil =>
      intro r _ hr
      cases r with
      | nil => rfl
      | cons c rest =>
          have := hr c rfl
          simp [List.dropWhile, this]
  | cons w ws ih =>
      intro r h hr
      have hw : w.isWhitespace = true := h w (List.mem_cons_self w ws)
      simp [List.dropWhile, hw]
      exact ih r (fun x hx => h x (List.mem_cons_of_mem w hx)) hr

theorem firstSomeUpTo_isSome_of {β : Type} (f : Nat → Option β) :
    ∀ (n k : Nat), 1 ≤ k → k ≤ n → (f k).isSome = true →
      (firstSomeUpTo f n).isSome = true := by
  intro n
  induction n with
  | zero => intro k h1 h2; omega
  | succ n ih =>
      intro k h1 h2 h3
      simp only [firstSomeUpTo]
      cases hm : firstSomeUpTo f n with
      | some b => rfl
      | none =>
          by_cases hk : k ≤ n
          · have := ih k h1 hk h3
            rw [hm] at this
            exact absurd this (by simp)
          · have : k = n + 1 := by omega
            subst this
            exact h3

theorem matchJavaLine_isSome_of_diag (l : List Char) (h : JavacDiagLine l) :
    (matchJavaLine l).isSome = true := by
  obtain ⟨p, ds, ws, msg, sev, hp, hds, hdig, hws, hsev, hmsg, hl⟩ := h
  have hsevhead : ∀ c, (sev ++ ':' :: msg).head? = some c → c.isWhitespace = false := by
    rcases hsev with h | h <;> subst h <;>
      (intro c hc; simp at hc; rw [← hc]; decide)
  have htail : (matchJavaTail (ds ++ ':' :: (ws ++ sev ++ ':' :: msg))).isSome = true := by
    unfold matchJavaTail
    rw [leadingDigits_digits_colon ds _ hdig]
    simp only [hds, if_neg]
    have hdw : List.dropWhile Char.isWhitespace (ws ++ sev ++ ':' :: msg) =
        sev ++ ':' :: msg := by
      rw [List.append_assoc]
      exact dropWhile_ws_append ws (sev ++ ':' :: msg) hws hsevhead
    rcases hsev with h | h <;> subst h
    · simp only [hdw]
      rw [dropLit_append]
      simp [hmsg]
    · simp only [hdw]
      have hwarn : dropLit "error".data ("warning".data ++ ':' :: msg) = none := rfl
      rw [hwarn, dropLit_append]
      simp [hmsg]
  have hl2 : l = (p ++ ".java".data) ++ ':' :: (ds ++ ':' :: (ws ++ sev ++ ':' :: msg)) := by
    rw [hl]
    simp [List.append_assoc]
  have hklen : (p ++ ".java".data).length = p.length + 5 := by
    simp
  have htake : l.take (p.length + 5) = p ++ ".java".data := by
    rw [hl2, ← hklen, List.take_left]
  have hdrop : l.drop (p.length + 5) = ':' :: (ds ++ ':' :: (ws ++ sev ++ ':' :: msg)) := by
    rw [hl2, ← hklen, List.drop_left]
  have hplen : 1 ≤ p.length := by
    cases p with
    | nil => exact absurd rfl hp
    | cons a b => simp
  obtain ⟨⟨n0, sv, ms⟩, hv⟩ := Option.isSome_iff_exists.mp htail
  have htry : (javaLineTry l (p.length + 5)).isSome = true := by
    unfold javaLineTry
    rw [if_pos ?hcond]
    case hcond =>
      refine ⟨by omega, ?_, ?_⟩
      · rw [htake]
        rw [ List.isSuffixOf_iff_suffix]
        exact List.suffix_append p ".java".data
      · rw [hdrop]
        rfl
    rw [hdrop]
    simp only [List.tail_cons, hv]
    rfl
  have hkle : p.length + 5 ≤ l.length := by
    rw [hl2]
    simp
  unfold matchJavaLine
  exact firstSomeUpTo_isSome_of (javaLineTry l) l.length (p.length + 5)
    (by omega) hkle htry

/-- C3 (amended): every Java submission whose compile step exits
nonzero yields `CE` with no testcase verdicts, zero passed, and
`compilationErrors` equal to the structured parse of the compiler's
stderr under the javac line grammar — non-empty whenever some stderr
line matches that grammar, but possibly empty (e.g. when the compile
step is killed by its timeout and stderr is `'Time Limit Exceeded'`). -/
theorem compile_failure_ce_report (compileRaw : RawResult)
    (parse : String → Option Json) (sh : Bool)
    (tcs : List (Testcase × RawResult × Nat))
    (h : compileRaw.exitCode ≠ 0) :
    (javaExecuteCode compileRaw parse sh tcs).status = .CE ∧
    (javaExecuteCode compileRaw parse sh tcs).testcaseResults = [] ∧
    (javaExecuteCode compileRaw parse sh tcs).passedTestcases = 0 ∧
    (javaExecuteCode compileRaw parse sh tcs).totalTestcases = tcs.length ∧
    (javaExecuteCode compileRaw parse sh tcs).compilationErrors =
      some (parseJavaCompilationErrors compileRaw.stderr) ∧
    ((∃ line ∈ jsSplitLines compileRaw.stderr, JavacDiagLine line.data) →
      parseJavaCompilationErrors compileRaw.stderr ≠ []) := by
  refine ⟨?_, ?_, ?_, ?_, ?_, ?_⟩
  · simp [javaExecuteCode, h]
  · simp [javaExecuteCode, h]
  · simp [javaExecuteCode, h]
  · simp [javaExecuteCode, h]
  · simp [javaExecuteCode, h]
  · rintro ⟨line, hmem, hdiag⟩ hnil
    unfold parseJavaCompilationErrors at hnil
    rw [List.filterMap_eq_nil_iff] at hnil
    have hnone := hnil line hmem
    have hsome := matchJavaLine_isSome_of_diag line.data hdiag
    rw [hnone] at hsome
    exact absurd hsome (by simp)

/-- Counterexample to C3 as stated: a compile step killed by its
timeout exits nonzero with stderr `'Time Limit Exceeded'`, which
matches no javac diagnostic line, so `compilationErrors` is EMPTY —
there is no entry at all, let alone one with a positive line number. -/
theorem compile_timeout_empty_diagnostics_counterexample :
    (javaExecuteCode ⟨"", "Time Limit Exceeded", -1⟩ (fun _ => none) false
        [(⟨Json.null, Json.null⟩, ⟨"", "", 0⟩, 0)]).status = .CE ∧
    (javaExecuteCode ⟨"", "Time Limit Exceeded", -1⟩ (fun _ => none) false
        [(⟨Json.null, Json.null⟩, ⟨"", "", 0⟩, 0)]).compilationErrors = some [] ∧
    ((-1 : Int) ≠ 0) := by
  refine ⟨rfl, by decide, by decide⟩

/-- Witness for C3 (amended) at a concrete failed compile whose stderr
is a javac-formatted diagnostic: the diagnostics parse is non-empty. -/
theorem compile_failure_ce_report_witness :
    (javaExecuteCode ⟨"", "Solution.java:3: error: cannot find symbol", 1⟩
        (fun _ => none) false []).status = .CE ∧
    parseJavaCompilationErrors "Solution.java:3: error: cannot find symbol" ≠ [] := by
  have h := compile_failure_ce_report
    ⟨"", "Solution.java:3: error: cannot find symbol", 1⟩ (fun _ => none) false []
    (by decide)
  refine ⟨h.1, h.2.2.2.2.2 ?_⟩
  refine ⟨"Solution.java:3: error: cannot find symbol", ?_, ?_⟩
  · decide
  · exact ⟨"Solution".data, "3".data, " ".data, " cannot find symbol".data,
      "error".data, by decide, by decide, by decide, by decide, Or.inl rfl,
      by decide, by decide⟩

/-- Counterexample to C7 as stated: for the unsupported type
`ListNode`, harness generation does NOT fail — `mapTypeToJava` returns
the string unchanged, `getParseCode` emits a commented raw `Object`
binding (deferring any failure to harness compile/run time), and
`getSerializeCode` falls back to `String.valueOf(result)`. -/
theorem unsupported_type_no_failure_counterexample :
    mapTypeToJava "ListNode" = "ListNode" ∧
    ("ListNode" ∈ supportedJavaTypes → False) ∧
    getParseCode "head" "ListNode" = unsupportedParseFallback "head" "ListNode" ∧
    getSerializeCode "ListNode" = "String.valueOf(result)" := by
  refine ⟨by decide, by decide, by decide, by decide⟩

/-- C7 (amended): harness generation is total on unsupported
TypeTags — no generation-time error is raised.  `mapTypeToJava`
returns any unrecognized type string unchanged, and for any Java type
outside the supported switch sets, `getParseCode` emits the commented
`Object`-binding fallback and `getSerializeCode` emits
`String.valueOf(result)`; failure, if any, is deferred to harness
compile/run time. -/
theorem unsupported_type_fallback (t paramName jt : String)
    (h1 : jsTrim (jsToLowerCase t) ∉ recognizedTypeInputs)
    (h2 : jt ∉ supportedJavaTypes) :
    mapTypeToJava t = t ∧
    getParseCode paramName jt = unsupportedParseFallback paramName jt ∧
    getSerializeCode jt = "String.valueOf(result)" := by
  refine ⟨?_, ?_, ?_⟩
  · simp only [recognizedTypeInputs, List.mem_cons, not_or, List.not_mem_nil,
      not_false_iff, and_true] at h1
    unfold mapTypeToJava mapTypeToJavaAux
    generalize jsTrim (jsToLowerCase t) = u at h1 ⊢
    obtain ⟨n1, n2, n3, n4, n5, n6, n7, n8, n9, n10, n11, n12, n13, n14, n15,
      n16, n17, n18, n19, n20, n21, n22, n23, n24, n25, n26, n27, n28, n29, n30⟩ := h1
    simp only [n1, n2, n3, n4, n5, n6, n7, n8, n9, n10, n11, n12, n13, n14, n15,
      n16, n17, n18, n19, n20, n21, n22, n23, n24, n25, n26, n27, n28, n29, n30,
      or_self, if_false]
  · simp only [supportedJavaTypes, List.mem_cons, not_or, List.not_mem_nil,
      not_false_iff, and_true] at h2
    unfold getParseCode
    obtain ⟨n1, n2, n3, n4, n5, n6, n7, n8, n9, n10, n11, n12, n13, n14, n15,
      n16, n17, n18, n19, n20⟩ := h2
    simp only [n1, n2, n3, n4, n5, n6, n7, n8, n9, n10, n11, n12, n13, n14, n15,
      n16, n17, n18, n19, n20, if_false]
  · simp only [supportedJavaTypes, List.mem_cons, not_or, List.not_mem_nil,
      not_false_iff, and_true] at h2
    unfold getSerializeCode
    obtain ⟨n1, n2, n3, n4, n5, n6, n7, n8, n9, n10, n11, n12, n13, n14, n15,
      n16, n17, n18, n19, n20⟩ := h2
    simp only [n1, n2, n3, n4, n5, n6, n7, n8, n9, n10, n11, n12, n13, n14, n15,
      n16, n17, n18, n19, n20, or_self, if_false]

/-- Witness for C7 (amended) at the unsupported type `TreeNode`. -/
theorem unsupported_type_fallback_witness :
    mapTypeToJava "TreeNode" = "TreeNode" ∧
    getParseCode "root" "TreeNode" = unsupportedParseFallback "root" "TreeNode" ∧
    getSerializeCode "TreeNode" = "String.valueOf(result)" :=
  unsupported_type_fallback "TreeNode" "root" "TreeNode" (by decide) (by decide)

theorem runLoopFs_no_faults (interpretedCE sh : Bool) :
    ∀ (pairs : List (TcResult × String)) (i : Nat) (st : LoopState),
    runLoopFs (fun _ => false) interpretedCE sh i pairs st =
      .ok (runLoop interpretedCE sh i pairs st) := by
  intro pairs
  induction pairs with
  | nil => intro i st; rfl
  | cons p rest ih =>
      intro i st
      simp only [runLoopFs, runLoop, Bool.false_eq_true, if_false]
      split_ifs <;> simp [ih]

/-- With no injected faults, the instrumented Python body returns
exactly the plain model's report (the lifecycle model refines the
grading model). -/
theorem pythonBodyFs_no_faults (parse : String → Option Json) (sh : Bool)
    (tcs : List (Testcase × RawResult × Nat)) :
    pythonBodyFs ⟨false, false, fun _ => false⟩ parse sh tcs =
      .ok (pythonExecuteCode parse sh tcs) := by
  unfold pythonBodyFs gradeRunFs pythonExecuteCode gradeRun
  simp only []
  rw [runLoopFs_no_faults]
  cases runLoop true sh 0 (classifyTestcases parse tcs) initLoopState <;> rfl

/-- C8: on every exit path of `executeCode` — normal completion, the
early compile-error return, the interpreted-language CE abort, and any
injected filesystem exception — the workspace directory allocated at
the start is removed before the call returns (cleanup runs in the
`finally` block; `fs.rm` itself is modelled as succeeding). -/
theorem workspace_always_cleaned (ws : Nat) (faults : WriteFaults)
    (compileRaw : RawResult) (parse : String → Option Json) (sh : Bool)
    (tcs : List (Testcase × RawResult × Nat)) (fs : FsState) :
    ws ∉ (pythonExecuteCodeFs ws faults parse sh tcs fs).2.dirs ∧
    ws ∉ (javaExecuteCodeFs ws faults compileRaw parse sh tcs fs).2.dirs := by
  constructor <;>
    simp [pythonExecuteCodeFs, javaExecuteCodeFs, withWorkspace, List.mem_filter]

theorem isSyntaxSignature_empty : isSyntaxSignature "" = false := by decide

theorem pyAbortCheck_iff (r : TcResult) :
    pyAbortCheck r = true ↔
      r.status = .Error ∧ ∃ m, r.errorMessage = some m ∧ isSyntaxSignature m = true := by
  unfold pyAbortCheck errTruthy
  cases hm : r.errorMessage with
  | none => simp
  | some m =>
      by_cases he : m = ""
      · subst he
        simp [isSyntaxSignature_empty]
      · simp [he]

/-- C5: a Python (interpreted) submission is reported `CE` — with
empty `testcaseResults` and `passedTestcases = 0` — if and only if its
first testcase's verdict is an `Error` whose text matches a known
syntax-error signature (`SyntaxError`, `IndentationError`, or
`File "solution.py"`); a later testcase's error, or a first-testcase
error without such a signature, never yields `CE`. -/
theorem interpreted_syntax_error_abort (parse : String → Option Json)
    (sh : Bool) (tcs : List (Testcase × RawResult × Nat)) :
    ((pythonExecuteCode parse sh tcs).status = .CE ↔
      ∃ r, (submissionVerdicts parse tcs).head? = some r ∧ r.status = .Error ∧
        ∃ m, r.errorMessage = some m ∧ isSyntaxSignature m = true) ∧
    ((pythonExecuteCode parse sh tcs).status = .CE →
      (pythonExecuteCode parse sh tcs).testcaseResults = [] ∧
      (pythonExecuteCode parse sh tcs).passedTestcases = 0 ∧
      (pythonExecuteCode parse sh tcs).totalTestcases = tcs.length) := by
  by_cases hab : pySyntaxAbort parse tcs = true
  · obtain ⟨p, rest, hc, heq⟩ := pythonExecuteCode_abort parse sh tcs hab
    have habp : pyAbortCheck p.1 = true := by
      unfold pySyntaxAbort submissionVerdicts at hab
      rw [hc] at hab
      simpa [indexFrom, pyAbortCheck_set_index] using hab
    rw [heq]
    refine ⟨?_, fun _ => ⟨rfl, rfl, rfl⟩⟩
    constructor
    · intro _
      refine ⟨{ p.1 with index := 1 }, ?_, ?_⟩
      · unfold submissionVerdicts
        rw [hc]
        rfl
      · have := (pyAbortCheck_iff p.1).mp habp
        exact this
    · intro _
      rfl
  · have hab' : pySyntaxAbort parse tcs = false := by simpa using hab
    rw [pythonExecuteCode_noabort parse sh tcs hab']
    refine ⟨?_, fun h => absurd h (finishRun_status_ne_CE _ _ _)⟩
    constructor
    · intro h
      exact absurd h (finishRun_status_ne_CE _ _ _)
    · rintro ⟨r, hr, hstat, m, hm, hsig⟩
      exfalso
      apply hab
      unfold pySyntaxAbort
      rw [hr]
      exact (pyAbortCheck_iff r).mpr ⟨hstat, m, hm, hsig⟩

/-- Witness for C5: a first-testcase runtime error whose stderr
contains `SyntaxError` converts the submission to `CE` with no
verdicts reported. -/
theorem interpreted_syntax_error_abort_witness :
    (pythonExecuteCode (fun _ => none) true
      [(⟨Json.null, Json.null⟩, ⟨"", "SyntaxError: invalid syntax", 1⟩, 0)]).status = .CE ∧
    (pythonExecuteCode (fun _ => none) true
      [(⟨Json.null, Json.null⟩, ⟨"", "SyntaxError: invalid syntax", 1⟩, 0)]).testcaseResults = [] := by
  have h := interpreted_syntax_error_abort (fun _ => none) true
    [(⟨Json.null, Json.null⟩, ⟨"", "SyntaxError: invalid syntax", 1⟩, 0)]
  have hce : (pythonExecuteCode (fun _ => none) true
      [(⟨Json.null, Json.null⟩, ⟨"", "SyntaxError: invalid syntax", 1⟩, 0)]).status = .CE := by
    apply h.1.mpr
    refine ⟨(submissionVerdicts (fun _ => none)
      [(⟨Json.null, Json.null⟩, ⟨"", "SyntaxError: invalid syntax", 1⟩, 0)]).headD dummyTc, ?_, ?_, ?_⟩
    · rfl
    · rfl
    · exact ⟨"SyntaxError: invalid syntax", rfl, by decide⟩
  exact ⟨hce, (h.2 hce).1⟩

theorem finishRun_results_false (total : Nat) (st : LoopState) :
    (finishRun false total st).testcaseResults =
      st.results ++ optToList st.firstHiddenFailure := by
  unfold finishRun optToList
  rcases st.firstHiddenFailure with _ | f <;> rcases st.firstFailure with _ | g <;>
    split_ifs <;> (try simp) <;> (try (split_ifs <;> simp))

theorem finishRun_passed (sh : Bool) (total : Nat) (st : LoopState) :
    (finishRun sh total st).passedTestcases = st.passed := by
  unfold finishRun
  rcases st.firstFailure with _ | g <;> split_ifs <;> (try rfl) <;> (try simp) <;>
    (try (split_ifs <;> simp))

/-- C2: with redaction requested (`showHiddenInputs = false`), the
reported `testcaseResults` are exactly the full verdict records of the
testcases at 0-based indices 0, 1, 2, plus — appended at the end — the
record of the first non-passing hidden testcase (0-based index ≥ 3),
if any; `passedTestcases` still tallies passes over ALL testcases,
hidden ones included. -/
theorem hidden_testcase_redaction (parse : String → Option Json)
    (tcs : List (Testcase × RawResult × Nat)) (compileRaw : RawResult) :
    (compileRaw.exitCode = 0 →
      (javaExecuteCode compileRaw parse false tcs).testcaseResults =
        (submissionVerdicts parse tcs).take 3 ++
          optToList (firstNonPassed ((submissionVerdicts parse tcs).drop 3)) ∧
      (javaExecuteCode compileRaw parse false tcs).passedTestcases =
        countPassed (submissionVerdicts parse tcs)) ∧
    (pySyntaxAbort parse tcs = false →
      (pythonExecuteCode parse false tcs).testcaseResults =
        (submissionVerdicts parse tcs).take 3 ++
          optToList (firstNonPassed ((submissionVerdicts parse tcs).drop 3)) ∧
      (pythonExecuteCode parse false tcs).passedTestcases =
        countPassed (submissionVerdicts parse tcs)) := by
  have h1 : (finishRun false tcs.length
      (finalState false (classifyTestcases parse tcs))).testcaseResults =
      (submissionVerdicts parse tcs).take 3 ++
        optToList (firstNonPassed ((submissionVerdicts parse tcs).drop 3)) := by
    rw [finishRun_results_false]
    unfold finalState submissionVerdicts
    simp only []
    rw [visibleSpec_false_take, firstHiddenSpec_false_drop]
  have h2 : (finishRun false tcs.length
      (finalState false (classifyTestcases parse tcs))).passedTestcases =
      countPassed (submissionVerdicts parse tcs) := by
    rw [finishRun_passed]
    rfl
  constructor
  · intro h
    rw [javaExecuteCode_ok compileRaw parse false tcs h]
    exact ⟨h1, h2⟩
  · intro h
    rw [pythonExecuteCode_noabort parse false tcs h]
    exact ⟨h1, h2⟩

/-- Witness for C2: five testcases under redaction where only the
fifth (0-based index 4, hidden) fails — three full records plus the
appended hidden failure are reported, and four passes are tallied. -/
theorem hidden_testcase_redaction_witness :
    (pythonExecuteCode (fun _ => some (Json.obj [("result", Json.num 1)])) false
      [(⟨Json.null, Json.num 1⟩, ⟨"", "", 0⟩, 0),
       (⟨Json.null, Json.num 1⟩, ⟨"", "", 0⟩, 0),
       (⟨Json.null, Json.num 1⟩, ⟨"", "", 0⟩, 0),
       (⟨Json.null, Json.num 1⟩, ⟨"", "", 0⟩, 0),
       (⟨Json.null, Json.num 2⟩, ⟨"", "", 0⟩, 0)]).passedTestcases = 4 ∧
    (pythonExecuteCode (fun _ => some (Json.obj [("result", Json.num 1)])) false
      [(⟨Json.null, Json.num 1⟩, ⟨"", "", 0⟩, 0),
       (⟨Json.null, Json.num 1⟩, ⟨"", "", 0⟩, 0),
       (⟨Json.null, Json.num 1⟩, ⟨"", "", 0⟩, 0),
       (⟨Json.null, Json.num 1⟩, ⟨"", "", 0⟩, 0),
       (⟨Json.null, Json.num 2⟩, ⟨"", "", 0⟩, 0)]).testcaseResults.length = 4 := by
  have h := (hidden_testcase_redaction
    (fun _ => some (Json.obj [("result", Json.num 1)]))
    [(⟨Json.null, Json.num 1⟩, ⟨"", "", 0⟩, 0),
     (⟨Json.null, Json.num 1⟩, ⟨"", "", 0⟩, 0),
     (⟨Json.null, Json.num 1⟩, ⟨"", "", 0⟩, 0),
     (⟨Json.null, Json.num 1⟩, ⟨"", "", 0⟩, 0),
     (⟨Json.null, Json.num 2⟩, ⟨"", "", 0⟩, 0)] ⟨"", "", 0⟩).2 rfl
  constructor
  · rw [h.2]
    rfl
  · rw [h.1]
    rfl

/-- The first-failure aggregation contract of claim C1, relating a
submission report to its (1-based indexed) verdict sequence: `AC`
exactly when every verdict passed; otherwise the overall status and
message come from the FIRST non-passing verdict — `Timeout ↦ TLE`,
`Error ↦ RE`, `Failed ↦ WA` — naming its 1-based index, regardless of
later, possibly more severe, verdicts. -/
def overallAggSpec (res : ExecResult) (vs : List TcResult) : Prop :=
  (res.status = .AC ↔ ∀ r ∈ vs, r.status = .Passed) ∧
  ∀ k, k < vs.length →
    (∀ j, j < k → (vs.getD j dummyTc).status = .Passed) →
    (vs.getD k dummyTc).status ≠ .Passed →
    res.status = (match (vs.getD k dummyTc).status with
      | .Timeout => OverallStatus.TLE
      | .Error => OverallStatus.RE
      | _ => OverallStatus.WA) ∧
    res.message = (match (vs.getD k dummyTc).status with
      | .Timeout => "Time Limit Exceeded on testcase " ++ toString (k + 1)
      | .Error => "Runtime Error on testcase " ++ toString (k + 1) ++ ": " ++
          jsInterp (vs.getD k dummyTc).errorMessage
      | _ => "Wrong Answer on testcase " ++ toString (k + 1))

theorem finishRun_finalState_agg (sh : Bool) (pairs : List (TcResult × String)) :
    overallAggSpec (finishRun sh pairs.length (finalState sh pairs))
      (indexFrom 0 (pairs.map Prod.fst)) := by
  have hlen : (indexFrom 0 (pairs.map Prod.fst)).length = pairs.length := by
    rw [indexFrom_length]
    simp
  constructor
  · constructor
    · intro hAC
      by_contra hnall
      have hff : ∃ f, firstNonPassed (indexFrom 0 (pairs.map Prod.fst)) = some f := by
        cases hcc : firstNonPassed (indexFrom 0 (pairs.map Prod.fst)) with
        | none => exact absurd ((firstNonPassed_none_iff _).mp hcc) hnall
        | some f => exact ⟨f, rfl⟩
      obtain ⟨f, hf⟩ := hff
      have hcp : countPassed (indexFrom 0 (pairs.map Prod.fst)) ≠ pairs.length := by
        intro hcp
        rw [← hlen] at hcp
        exact hnall ((countPassed_eq_length_iff _).mp hcp)
      unfold finishRun finalState at hAC
      simp only [hf] at hAC
      rw [if_neg hcp] at hAC
      split_ifs at hAC
    · intro hall
      have hcp : countPassed (indexFrom 0 (pairs.map Prod.fst)) = pairs.length := by
        rw [← hlen]
        exact (countPassed_eq_length_iff _).mpr hall
      unfold finishRun finalState
      simp only []
      rw [if_pos hcp]
  · intro k hk hpre hknp
    have hff : firstNonPassed (indexFrom 0 (pairs.map Prod.fst)) =
        some ((indexFrom 0 (pairs.map Prod.fst)).getD k dummyTc) :=
      firstNonPassed_at _ k hk hpre hknp
    have hmem : (indexFrom 0 (pairs.map Prod.fst)).getD k dummyTc ∈
        indexFrom 0 (pairs.map Prod.fst) := by
      rw [List.getD_eq_getElem _ dummyTc hk]
      exact List.getElem_mem hk
    have hcp : countPassed (indexFrom 0 (pairs.map Prod.fst)) ≠ pairs.length := by
      intro hcp
      rw [← hlen] at hcp
      exact hknp (((countPassed_eq_length_iff _).mp hcp) _ hmem)
    have hidx : ((indexFrom 0 (pairs.map Prod.fst)).getD k dummyTc).index = k + 1 := by
      rw [indexFrom_getD (pairs.map Prod.fst) 0 k (by rw [indexFrom_length] at hk; exact hk)]
      simp
    unfold finishRun finalState
    simp only [hff]
    rw [if_neg hcp]
    rcases hs : ((indexFrom 0 (pairs.map Prod.fst)).getD k dummyTc).status with
      _ | _ | _ | _
    · exact absurd hs hknp
    · rw [if_neg (by decide), if_neg (by decide)]
      exact ⟨rfl, by rw [hidx]⟩
    · rw [if_neg (by decide), if_pos rfl]
      exact ⟨rfl, by rw [hidx]⟩
    · rw [if_pos rfl]
      exact ⟨rfl, by rw [hidx]⟩

/-- C1: for every submission that reaches testcase execution
(compilation succeeded, or was skipped without the interpreted
syntax-error abort), the overall status is `AC` exactly when every
verdict is `Passed`; otherwise the first (lowest 1-based index)
non-passing verdict determines status and message — `Timeout ↦ TLE`,
`Error ↦ RE`, `Failed ↦ WA`, the message naming that testcase's index
— regardless of any later, more severe verdict. -/
theorem overall_status_first_failure_wins (parse : String → Option Json)
    (sh : Bool) (tcs : List (Testcase × RawResult × Nat)) (compileRaw : RawResult) :
    (compileRaw.exitCode = 0 →
      overallAggSpec (javaExecuteCode compileRaw parse sh tcs)
        (submissionVerdicts parse tcs)) ∧
    (pySyntaxAbort parse tcs = false →
      overallAggSpec (pythonExecuteCode parse sh tcs)
        (submissionVerdicts parse tcs)) := by
  have hlen : (classifyTestcases parse tcs).length = tcs.length := by
    simp [classifyTestcases]
  have hagg := finishRun_finalState_agg sh (classifyTestcases parse tcs)
  rw [hlen] at hagg
  constructor
  · intro h
    rw [javaExecuteCode_ok compileRaw parse sh tcs h]
    exact hagg
  · intro h
    rw [pythonExecuteCode_noabort parse sh tcs h]
    exact hagg

/-- Witness for C1: two testcases where only the second mismatches —
the report is `WA` with a message naming testcase 2. -/
theorem overall_status_first_failure_wins_witness :
    (pythonExecuteCode (fun _ => some (Json.obj [("result", Json.num 1)])) true
      [(⟨Json.null, Json.num 1⟩, ⟨"", "", 0⟩, 0),
       (⟨Json.null, Json.num 2⟩, ⟨"", "", 0⟩, 0)]).status = .WA ∧
    (pythonExecuteCode (fun _ => some (Json.obj [("result", Json.num 1)])) true
      [(⟨Json.null, Json.num 1⟩, ⟨"", "", 0⟩, 0),
       (⟨Json.null, Json.num 2⟩, ⟨"", "", 0⟩, 0)]).message =
      "Wrong Answer on testcase 2" := by
  have h := ((overall_status_first_failure_wins
    (fun _ => some (Json.obj [("result", Json.num 1)])) true
    [(⟨Json.null, Json.num 1⟩, ⟨"", "", 0⟩, 0),
     (⟨Json.null, Json.num 2⟩, ⟨"", "", 0⟩, 0)] ⟨"", "", 0⟩).2 rfl).2 1
    (by rw [submissionVerdicts_length]; decide)
    (by
      intro j hj
      have : j = 0 := by omega
      subst this
      rfl)
    (by decide)
  exact ⟨h.1, h.2⟩

/-- Witness for C8 at a concrete run whose very first file write
throws: the workspace directory is still removed. -/
theorem workspace_always_cleaned_witness :
    7 ∉ (pythonExecuteCodeFs 7 ⟨true, false, fun _ => false⟩ (fun _ => none) true []
      ⟨[3, 7]⟩).2.dirs :=
  (workspace_always_cleaned 7 ⟨true, false, fun _ => false⟩ ⟨"", "", 0⟩
    (fun _ => none) true [] ⟨[3, 7]⟩).1
